import Mathlib

/-!
Verification of the KozOS kernel core (`src/12/os/kozos.c`): TCB table,
per-priority ready queues, scheduler, system-call dispatcher and the
mailbox message-passing subsystem.

Shallow embedding conventions:
- thread ids are indices into the fixed TCB table (the C code uses TCB
  addresses; the table is a static array, so indices are in bijection
  with addresses);
- the intrusive head/tail singly-linked queues are modelled as Lean
  lists (append at tail, remove at head, exactly as the C code does);
- `kz_sysdown` (unrecoverable halt) and out-of-bounds / null-pointer
  dereference (C undefined behaviour) are modelled as `Except` errors,
  so a `.ok` result is a normal return of the request.
-/

namespace Kozos

/-- `THREAD_NUM` from kozos.c. -/
abbrev THREAD_NUM : Nat := 6

/-- `PRIORITY_NUM` from kozos.c. -/
abbrev PRIORITY_NUM : Nat := 16

/-- Modelled from the spec: `MSGBOX_ID_NUM` is defined in the missing
header kozos.h; the spec's mailbox enumeration lists `MSGBOX_ID_MSGBOX1`
and `MSGBOX_ID_MSGBOX2`, so the array has 2 entries. -/
abbrev MSGBOX_ID_NUM : Nat := 2

/-- Modelled from the spec: `SOFTVEC_TYPE_NUM` is defined in the missing
header defines.h; the spec lists `SOFTVEC_TYPE_SYSCALL`,
`SOFTVEC_TYPE_SOFTERR` plus device-interrupt entries. Its exact value is
irrelevant to the claims; we use 3. -/
abbrev SOFTVEC_TYPE_NUM : Nat := 3

/-- A thread id. In C this is `kz_thread_id_t`, i.e. a TCB address. -/
abbrev Tid := Fin THREAD_NUM

/-- A value of C type `kz_thread_id_t`: either the null pointer, a TCB
address (index), or the sentinel `-1`. -/
inductive TIdVal where
  | null
  | tcb (i : Tid)
  | neg1
deriving DecidableEq, Repr

/-- `kz_thread` from kozos.c. The `next` intrusive pointer is absorbed
into the queue lists. The `syscall.param->un.recv` block of the pending
request is modelled inline (`recvRet`, the presence of the `sizep`/`pp`
out-pointers and the values written through them), since it is the only
parameter block the kernel itself reads back (in `recvmsg`). -/
structure TCB where
  name : String
  priority : Int
  stack : Nat
  ready : Bool
  initFunc : Option Nat
  initArgc : Int
  initArgv : Nat
  sp : Nat
  recvRet : TIdVal
  recvHasSizep : Bool
  recvHasPp : Bool
  recvSizeOut : Int
  recvPOut : Nat
deriving DecidableEq, Repr

/-- An all-zero TCB (`memset(thp, 0, sizeof(*thp))`). A slot is free iff
`initFunc = none` (null entry function). -/
def TCB.zero : TCB :=
  { name := "", priority := 0, stack := 0, ready := false,
    initFunc := none, initArgc := 0, initArgv := 0, sp := 0,
    recvRet := .null, recvHasSizep := false, recvHasPp := false,
    recvSizeOut := 0, recvPOut := 0 }

/-- `kz_msgbuf` from kozos.c: sender TCB reference (null from service
calls), message size and payload pointer. -/
structure MsgBuf where
  sender : Option Tid
  size : Int
  p : Nat
deriving DecidableEq, Repr

/-- `kz_msgbox` from kozos.c: at most one pending receiver and a FIFO of
message buffers (head/tail intrusive list, modelled as a list). -/
structure MsgBox where
  receiver : Option Tid
  fifo : List MsgBuf
deriving DecidableEq, Repr

/-- The kernel's global mutable state: `threads`, `readyque`, `current`,
`msgboxes`, `handlers`, the static bump pointer `thread_stack` of
`thread_run`, and the kernel heap bump position (see `kzmem_alloc`). -/
structure KernelState where
  threads : Tid → TCB
  readyque : Nat → List Tid
  current : Option Tid
  msgboxes : Fin MSGBOX_ID_NUM → MsgBox
  handlers : Fin SOFTVEC_TYPE_NUM → Option Nat
  threadStack : Nat
  heapNext : Nat

/-- Kernel-fatal outcomes: `sysdown` is `kz_sysdown()` (diagnostic print
and infinite loop); `oob` marks C undefined behaviour (out-of-bounds
array index or null-pointer dereference). -/
inductive KErr where
  | sysdown
  | oob
deriving DecidableEq, Repr

/-- `getcurrent()` from kozos.c: if the current thread is READY, unlink
it from the head of its priority's ready queue and clear the flag;
otherwise do nothing. Returns -1 on null current (state unchanged). -/
def getcurrent (s : KernelState) : Except KErr KernelState :=
  match s.current with
  | none => .ok s
  | some c =>
    let t := s.threads c
    if t.ready = false then .ok s
    else if 0 ≤ t.priority ∧ t.priority < (PRIORITY_NUM : Int) then
      let i : Nat := t.priority.toNat
      .ok { s with
        readyque := Function.update s.readyque i (s.readyque i).tail,
        threads := Function.update s.threads c { t with ready := false } }
    else .error .oob

/-- `putcurrent()` from kozos.c: if the current thread is not READY,
append it at the tail of `readyque[current->priority]` and set READY;
otherwise do nothing. Returns -1 on null current (state unchanged). -/
def putcurrent (s : KernelState) : Except KErr KernelState :=
  match s.current with
  | none => .ok s
  | some c =>
    let t := s.threads c
    if t.ready = true then .ok s
    else if 0 ≤ t.priority ∧ t.priority < (PRIORITY_NUM : Int) then
      let i : Nat := t.priority.toNat
      .ok { s with
        readyque := Function.update s.readyque i (s.readyque i ++ [c]),
        threads := Function.update s.threads c { t with ready := true } }
    else .error .oob

/-- The scan loop of `schedule()`: the first index `j ≥ i` (below
`PRIORITY_NUM`) whose ready queue is non-empty. -/
def findReadyFrom (rq : Nat → List Tid) (i : Nat) : Option Nat :=
  if i < PRIORITY_NUM then
    if rq i ≠ [] then some i else findReadyFrom rq (i + 1)
  else none
termination_by PRIORITY_NUM - i
decreasing_by simp_wf; omega

/-- `schedule()` from kozos.c: scan `readyque[0..PRIORITY_NUM)` in
ascending index order; set `current` to the head of the first non-empty
queue; if all are empty, `kz_sysdown()`. -/
def schedule (s : KernelState) : Except KErr KernelState :=
  match findReadyFrom s.readyque 0 with
  | none => .error .sysdown
  | some i =>
    match (s.readyque i).head? with
    | none => .error .sysdown
    | some t => .ok { s with current := some t }

/-- Result value written into the caller's parameter block (`p->un.*.ret`).
`unit` is for `EXIT`, which writes no result (its TCB is erased). -/
inductive SysRet where
  | int (n : Int)
  | tid (v : TIdVal)
  | ptr (q : Option Nat)
  | unit
deriving DecidableEq, Repr

/-- Modelled from the spec: `kzmem_alloc` lives in memory.c, which is
not under src/. Per spec §4.5 it is a segregated-fit pool allocator
returning null only on exhaustion; we model an unbounded bump allocator
that always returns a fresh non-null block, so the exhaustion path never
fires here (exhaustion would not return — it sysdowns in `sendmsg`). -/
def kzmem_alloc (s : KernelState) (size : Int) :
    KernelState × Option Nat :=
  ({ s with heapNext := s.heapNext + size.toNat + 1 }, some (s.heapNext + 1))

/-- Modelled from the spec: `kzmem_free` (memory.c, not under src/)
returns the block to its size-class free list; no observable effect in
the unbounded-pool model. -/
def kzmem_free (s : KernelState) (_p : Nat) : KernelState := s

/-- `sendmsg()` from kozos.c: allocate a message buffer (sysdown if the
pool is exhausted), fill in sender / size / payload pointer, and append
it at the tail of the mailbox FIFO. -/
def sendmsg (s : KernelState) (mboxid : Fin MSGBOX_ID_NUM)
    (thp : Option Tid) (size : Int) (p : Nat) : Except KErr KernelState :=
  let (s1, mp) := kzmem_alloc s 12
  match mp with
  | none => .error .sysdown
  | some _ =>
    let buf : MsgBuf := { sender := thp, size := size, p := p }
    let mbox := s1.msgboxes mboxid
    .ok { s1 with
      msgboxes := Function.update s1.msgboxes mboxid
        { mbox with fifo := mbox.fifo ++ [buf] } }

/-- The writes `recvmsg()` performs into the pending receiver's TCB /
parameter block: `recv.ret` gets the sender, and the size and payload
pointer are stored through `sizep` / `pp` when those are non-null. -/
def recvWrite (t : TCB) (mp : MsgBuf) : TCB :=
  let t1 := { t with recvRet :=
    match mp.sender with
    | none => TIdVal.null
    | some sid => TIdVal.tcb sid }
  let t2 := if t1.recvHasSizep then { t1 with recvSizeOut := mp.size } else t1
  if t2.recvHasPp then { t2 with recvPOut := mp.p } else t2

/-- `recvmsg()` from kozos.c: unlink the head buffer of the mailbox
FIFO, write `sender` into the pending receiver's `recv.ret` slot and
(through the `sizep` / `pp` out-pointers, when non-null) the size and
payload pointer; clear the `receiver` slot and free the buffer. A null
FIFO head or null receiver is a null-pointer dereference in C. -/
def recvmsg (s : KernelState) (mboxid : Fin MSGBOX_ID_NUM) :
    Except KErr KernelState :=
  let mbox := s.msgboxes mboxid
  match mbox.fifo with
  | [] => .error .oob
  | mp :: rest =>
    match mbox.receiver with
    | none => .error .oob
    | some r =>
      let s1 := { s with threads := Function.update s.threads r (recvWrite (s.threads r) mp) }
      let s2 := { s1 with
        msgboxes := Function.update s1.msgboxes mboxid
          { receiver := none, fifo := rest } }
      .ok (kzmem_free s2 mp.p)

/-- The free-slot scan of `thread_run()`: the first index `j ≥ i` (below
`THREAD_NUM`) whose TCB has a null entry function. -/
def findFreeFrom (th : Tid → TCB) (i : Nat) : Option Tid :=
  if h : i < THREAD_NUM then
    if (th ⟨i, h⟩).initFunc = none then some ⟨i, h⟩ else findFreeFrom th (i + 1)
  else none
termination_by THREAD_NUM - i

/-- `thread_run()` from kozos.c: find a free TCB slot (null entry
function); return -1 if the table is full. Otherwise zero the TCB, set
name / priority / init triple, carve a stack region from the bump
pointer (`thread_stack += stacksize; thp->stack = thread_stack`), prime
the initial frame (nine 4-byte pushes, so `context.sp = stack - 36`),
re-attach the caller, attach the new thread and return its id. -/
def thread_run (s : KernelState) (func : Nat) (name : String)
    (priority : Int) (stacksize : Nat) (argc : Int) (argv : Nat) :
    Except KErr (KernelState × SysRet) :=
  match findFreeFrom s.threads 0 with
  | none => .ok (s, .tid .neg1)
  | some i =>
    let newStack := s.threadStack + stacksize
    let t : TCB := { TCB.zero with
      name := name, priority := priority, ready := false,
      initFunc := some func, initArgc := argc, initArgv := argv,
      stack := newStack, sp := newStack - 36 }
    let s1 := { s with
      threads := Function.update s.threads i t,
      threadStack := newStack }
    do
      let s2 ← putcurrent s1
      let s3 := { s2 with current := some i }
      let s4 ← putcurrent s3
      .ok (s4, .tid (.tcb i))

/-- `thread_exit()` from kozos.c: print the name and zero the current
TCB (freeing its slot, not its stack). Null current dereferences. -/
def thread_exit (s : KernelState) : Except KErr (KernelState × SysRet) :=
  match s.current with
  | none => .error .oob
  | some c =>
    .ok ({ s with threads := Function.update s.threads c TCB.zero }, .unit)

/-- `thread_wait()` from kozos.c: re-attach the caller (yield). -/
def thread_wait (s : KernelState) : Except KErr (KernelState × SysRet) := do
  let s1 ← putcurrent s
  .ok (s1, .int 0)

/-- `thread_sleep()` from kozos.c: leave the caller detached. -/
def thread_sleep (s : KernelState) : Except KErr (KernelState × SysRet) :=
  .ok (s, .int 0)

/-- `thread_wakeup()` from kozos.c: re-attach the caller, then point
`current` at the target id and re-attach it (idempotent via READY). -/
def thread_wakeup (s : KernelState) (id : Tid) :
    Except KErr (KernelState × SysRet) := do
  let s1 ← putcurrent s
  let s2 := { s1 with current := some id }
  let s3 ← putcurrent s2
  .ok (s3, .int 0)

/-- `thread_getid()` from kozos.c: re-attach the caller and return its
TCB address. -/
def thread_getid (s : KernelState) : Except KErr (KernelState × SysRet) := do
  let s1 ← putcurrent s
  match s1.current with
  | none => .ok (s1, .tid .null)
  | some c => .ok (s1, .tid (.tcb c))

/-- `thread_chpri()` from kozos.c: remember the old priority, assign the
new one iff it is ≥ 0, re-attach the caller on the (possibly new)
queue, return the old priority. Null current dereferences. -/
def thread_chpri (s : KernelState) (priority : Int) :
    Except KErr (KernelState × SysRet) :=
  match s.current with
  | none => .error .oob
  | some c =>
    let t := s.threads c
    let old := t.priority
    let s1 :=
      if priority ≥ 0 then
        { s with threads := Function.update s.threads c { t with priority := priority } }
      else s
    do
      let s2 ← putcurrent s1
      .ok (s2, .int old)

/-- `thread_kmalloc()` from kozos.c: re-attach the caller, then allocate
from the kernel pool. -/
def thread_kmalloc (s : KernelState) (size : Int) :
    Except KErr (KernelState × SysRet) := do
  let s1 ← putcurrent s
  let (s2, q) := kzmem_alloc s1 size
  .ok (s2, .ptr q)

/-- `thread_kmfree()` from kozos.c: free the block, re-attach the
caller. -/
def thread_kmfree (s : KernelState) (p : Nat) :
    Except KErr (KernelState × SysRet) := do
  let s1 := kzmem_free s p
  let s2 ← putcurrent s1
  .ok (s2, .int 0)

/-- `thread_send()` from kozos.c: re-attach the caller, append a new
message buffer (sender = `current`) to `msgboxes[id]`; if a receiver is
parked, point `current` at it, perform `recvmsg()` and re-attach it.
Returns the size argument. An id outside `[0, MSGBOX_ID_NUM)` indexes
out of bounds. -/
def thread_send (s : KernelState) (id : Nat) (size : Int) (p : Nat) :
    Except KErr (KernelState × SysRet) :=
  if h : id < MSGBOX_ID_NUM then
    let mb : Fin MSGBOX_ID_NUM := ⟨id, h⟩
    do
      let s1 ← putcurrent s
      let s2 ← sendmsg s1 mb s1.current size p
      match (s2.msgboxes mb).receiver with
      | none => .ok (s2, .int size)
      | some r =>
        let s3 := { s2 with current := some r }
        let s4 ← recvmsg s3 mb
        let s5 ← putcurrent s4
        .ok (s5, .int size)
  else .error .oob

/-- `thread_recv()` from kozos.c: sysdown if a receiver is already
parked on the mailbox; otherwise park the caller as receiver. If the
FIFO is empty, return -1 and leave the caller detached (blocked); else
perform `recvmsg()`, re-attach the caller and return the `recv.ret`
slot (the sender id). An id outside `[0, MSGBOX_ID_NUM)` indexes out of
bounds. -/
def thread_recv (s : KernelState) (id : Nat) :
    Except KErr (KernelState × SysRet) :=
  if h : id < MSGBOX_ID_NUM then
    let mb : Fin MSGBOX_ID_NUM := ⟨id, h⟩
    let mbox := s.msgboxes mb
    match mbox.receiver with
    | some _ => .error .sysdown
    | none =>
      let s1 := { s with
        msgboxes := Function.update s.msgboxes mb
          { mbox with receiver := s.current } }
      match (s1.msgboxes mb).fifo with
      | [] => .ok (s1, .tid .neg1)
      | _ :: _ => do
        let s2 ← recvmsg s1 mb
        let s3 ← putcurrent s2
        match s3.current with
        | none => .error .oob
        | some c => .ok (s3, .tid ((s3.threads c).recvRet))
  else .error .oob

/-- `thread_setintr()` from kozos.c: install the interrupt-entry
trampoline in the software vector and record the handler; re-attach the
caller. A type outside the handler array indexes out of bounds. -/
def thread_setintr (s : KernelState) (type : Nat) (handler : Nat) :
    Except KErr (KernelState × SysRet) :=
  if h : type < SOFTVEC_TYPE_NUM then
    let s1 := { s with
      handlers := Function.update s.handlers ⟨type, h⟩ (some handler) }
    do
      let s2 ← putcurrent s1
      .ok (s2, .int 0)
  else .error .oob

/-- A system-call request: tag plus the caller-supplied inputs of the
corresponding arm of `kz_syscall_param_t`. For `RECV`, what matters to
the kernel is whether the `sizep` / `pp` out-pointers are null, so the
request records their presence. -/
inductive Request where
  | run (func : Nat) (name : String) (priority : Int) (stacksize : Nat)
        (argc : Int) (argv : Nat)
  | exit
  | wait
  | sleep
  | wakeup (id : Tid)
  | getid
  | chpri (priority : Int)
  | kmalloc (size : Int)
  | kmfree (p : Nat)
  | send (id : Nat) (size : Int) (p : Nat)
  | recv (id : Nat) (hasSizep : Bool) (hasPp : Bool)
  | setintr (type : Nat) (handler : Nat)
deriving DecidableEq, Repr

/-- `call_functions()` from kozos.c: dispatch on the request tag and
write the handler's result into the caller's parameter block. The only
result slot the kernel itself ever reads back is `un.recv.ret`, so that
is the only stored slot modelled; `caller` is the thread whose
parameter block `p` points into (null for service calls). -/
def call_functions (s : KernelState) (caller : Option Tid) (req : Request) :
    Except KErr (KernelState × SysRet) :=
  match req with
  | .run f n pr ss ac av => thread_run s f n pr ss ac av
  | .exit => thread_exit s
  | .wait => thread_wait s
  | .sleep => thread_sleep s
  | .wakeup id => thread_wakeup s id
  | .getid => thread_getid s
  | .chpri pr => thread_chpri s pr
  | .kmalloc sz => thread_kmalloc s sz
  | .kmfree p => thread_kmfree s p
  | .send id sz p => thread_send s id sz p
  | .recv id _ _ => do
    let (s1, ret) ← thread_recv s id
    match caller, ret with
    | some c, .tid v =>
      .ok ({ s1 with threads :=
        Function.update s1.threads c { s1.threads c with recvRet := v } }, ret)
    | _, _ => .ok (s1, ret)
  | .setintr ty hd => thread_setintr s ty hd

/-- `kz_syscall()` followed by the trap into `syscall_proc()` from
kozos.c: record the request in the caller's TCB (for `RECV`, the
out-pointer fields of its parameter block), detach the caller
(`getcurrent()`), then run `call_functions()`. `kz_syscall` dereferences
a null `current`. -/
def syscall_step (s : KernelState) (req : Request) :
    Except KErr (KernelState × SysRet) :=
  match s.current with
  | none => .error .oob
  | some c =>
    let s0 :=
      match req with
      | .recv _ hs hp =>
        let t := { s.threads c with recvHasSizep := hs, recvHasPp := hp }
        { s with threads := Function.update s.threads c t }
      | _ => s
    do
      let s1 ← getcurrent s0
      call_functions s1 (some c) req

/-- `kz_srvcall()` followed by `srvcall_proc()` from kozos.c: null out
`current` (so handlers that read it, e.g. SEND's sender field, see
null), then run `call_functions()` without detaching anything; the
parameter block belongs to the interrupt handler, not to a thread. -/
def srvcall_step (s : KernelState) (req : Request) :
    Except KErr (KernelState × SysRet) :=
  call_functions { s with current := none } none req

/-- Run a sequence of system-call requests from a given state,
propagating sysdown / undefined behaviour. -/
def runReqs (s : KernelState) : List Request → Except KErr KernelState
  | [] => .ok s
  | r :: rs => do
    let (s1, _) ← syscall_step s r
    runReqs s1 rs

/-- The mailbox invariant of the spec: no mailbox simultaneously has a
parked receiver and a non-empty FIFO. -/
def MboxInv (s : KernelState) : Prop :=
  ∀ i : Fin MSGBOX_ID_NUM,
    ¬((s.msgboxes i).receiver.isSome ∧ (s.msgboxes i).fifo ≠ [])

instance (s : KernelState) : Decidable (MboxInv s) := by
  unfold MboxInv; infer_instance

/-! ### Basic lemmas about the queue primitives -/

theorem putcurrent_of_ready {s : KernelState} {c : Tid}
    (hc : s.current = some c) (hr : (s.threads c).ready = true) :
    putcurrent s = .ok s := by
  unfold putcurrent
  rw [hc]
  simp [hr]

theorem putcurrent_of_not_ready {s : KernelState} {c : Tid}
    (hc : s.current = some c) (hr : (s.threads c).ready = false)
    (h0 : 0 ≤ (s.threads c).priority)
    (h1 : (s.threads c).priority < (PRIORITY_NUM : Int)) :
    putcurrent s = .ok { s with
      readyque := Function.update s.readyque (s.threads c).priority.toNat
        (s.readyque (s.threads c).priority.toNat ++ [c]),
      threads := Function.update s.threads c { s.threads c with ready := true } } := by
  have h1' : (s.threads c).priority < 16 := by simpa [PRIORITY_NUM] using h1
  unfold putcurrent
  rw [hc]
  simp [hr, h0, h1']

theorem putcurrent_oob {s : KernelState} {c : Tid}
    (hc : s.current = some c) (hr : (s.threads c).ready = false)
    (hp : ¬(0 ≤ (s.threads c).priority ∧ (s.threads c).priority < (PRIORITY_NUM : Int))) :
    putcurrent s = .error .oob := by
  have hp' : ¬(0 ≤ (s.threads c).priority ∧ (s.threads c).priority < 16) := by
    simpa [PRIORITY_NUM] using hp
  unfold putcurrent
  rw [hc]
  simp [hr, hp']

theorem getcurrent_of_not_ready {s : KernelState} {c : Tid}
    (hc : s.current = some c) (hr : (s.threads c).ready = false) :
    getcurrent s = .ok s := by
  unfold getcurrent
  rw [hc]
  simp [hr]

theorem getcurrent_of_ready {s : KernelState} {c : Tid}
    (hc : s.current = some c) (hr : (s.threads c).ready = true)
    (h0 : 0 ≤ (s.threads c).priority)
    (h1 : (s.threads c).priority < (PRIORITY_NUM : Int)) :
    getcurrent s = .ok { s with
      readyque := Function.update s.readyque (s.threads c).priority.toNat
        (s.readyque (s.threads c).priority.toNat).tail,
      threads := Function.update s.threads c { s.threads c with ready := false } } := by
  have h1' : (s.threads c).priority < 16 := by simpa [PRIORITY_NUM] using h1
  unfold getcurrent
  rw [hc]
  simp [hr, h0, h1']

theorem getcurrent_oob {s : KernelState} {c : Tid}
    (hc : s.current = some c) (hr : (s.threads c).ready = true)
    (hp : ¬(0 ≤ (s.threads c).priority ∧ (s.threads c).priority < (PRIORITY_NUM : Int))) :
    getcurrent s = .error .oob := by
  have hp' : ¬(0 ≤ (s.threads c).priority ∧ (s.threads c).priority < 16) := by
    simpa [PRIORITY_NUM] using hp
  unfold getcurrent
  rw [hc]
  simp [hr, hp']

theorem putcurrent_none {s : KernelState} (hc : s.current = none) :
    putcurrent s = .ok s := by
  unfold putcurrent
  rw [hc]

theorem getcurrent_none {s : KernelState} (hc : s.current = none) :
    getcurrent s = .ok s := by
  unfold getcurrent
  rw [hc]

theorem putcurrent_msgboxes {s s1 : KernelState}
    (h : putcurrent s = .ok s1) : s1.msgboxes = s.msgboxes := by
  cases hc : s.current with
  | none => rw [putcurrent_none hc] at h; cases h; rfl
  | some c =>
    cases hr : (s.threads c).ready with
    | true => rw [putcurrent_of_ready hc hr] at h; cases h; rfl
    | false =>
      by_cases hp : 0 ≤ (s.threads c).priority ∧ (s.threads c).priority < (PRIORITY_NUM : Int)
      · rw [putcurrent_of_not_ready hc hr hp.1 hp.2] at h; cases h; rfl
      · rw [putcurrent_oob hc hr hp] at h; cases h

theorem putcurrent_current {s s1 : KernelState}
    (h : putcurrent s = .ok s1) : s1.current = s.current := by
  cases hc : s.current with
  | none => rw [putcurrent_none hc] at h; cases h; simp [hc]
  | some c =>
    cases hr : (s.threads c).ready with
    | true => rw [putcurrent_of_ready hc hr] at h; cases h; simp [hc]
    | false =>
      by_cases hp : 0 ≤ (s.threads c).priority ∧ (s.threads c).priority < (PRIORITY_NUM : Int)
      · rw [putcurrent_of_not_ready hc hr hp.1 hp.2] at h; cases h; simp [hc]
      · rw [putcurrent_oob hc hr hp] at h; cases h

theorem getcurrent_msgboxes {s s1 : KernelState}
    (h : getcurrent s = .ok s1) : s1.msgboxes = s.msgboxes := by
  cases hc : s.current with
  | none => rw [getcurrent_none hc] at h; cases h; rfl
  | some c =>
    cases hr : (s.threads c).ready with
    | false => rw [getcurrent_of_not_ready hc hr] at h; cases h; rfl
    | true =>
      by_cases hp : 0 ≤ (s.threads c).priority ∧ (s.threads c).priority < (PRIORITY_NUM : Int)
      · rw [getcurrent_of_ready hc hr hp.1 hp.2] at h; cases h; rfl
      · rw [getcurrent_oob hc hr hp] at h; cases h

theorem getcurrent_current {s s1 : KernelState}
    (h : getcurrent s = .ok s1) : s1.current = s.current := by
  cases hc : s.current with
  | none => rw [getcurrent_none hc] at h; cases h; simp [hc]
  | some c =>
    cases hr : (s.threads c).ready with
    | false => rw [getcurrent_of_not_ready hc hr] at h; cases h; simp [hc]
    | true =>
      by_cases hp : 0 ≤ (s.threads c).priority ∧ (s.threads c).priority < (PRIORITY_NUM : Int)
      · rw [getcurrent_of_ready hc hr hp.1 hp.2] at h; cases h; simp [hc]
      · rw [getcurrent_oob hc hr hp] at h; cases h

end Kozos

namespace Kozos

/-! ### Scheduler scan characterization -/

theorem findReadyFrom_of_all_empty (rq : Nat → List Tid) :
    ∀ n i, PRIORITY_NUM - i ≤ n →
    (∀ k, i ≤ k → k < PRIORITY_NUM → rq k = []) →
    findReadyFrom rq i = none := by
  intro n
  induction n with
  | zero =>
    intro i hi _
    rw [findReadyFrom]
    have : ¬ i < PRIORITY_NUM := by omega
    simp [this]
  | succ n ih =>
    intro i hi hall
    rw [findReadyFrom]
    by_cases h : i < PRIORITY_NUM
    · have he : rq i = [] := hall i (by omega) h
      simp only [h, if_pos, he, ne_eq, not_true_eq_false, if_false]
      exact ih (i + 1) (by omega) (fun k hk1 hk2 => hall k (by omega) hk2)
    · simp [h]

theorem findReadyFrom_of_min (rq : Nat → List Tid)
    (j : Nat) (hj : j < PRIORITY_NUM) (hne : rq j ≠ []) :
    ∀ n i, PRIORITY_NUM - i ≤ n → i ≤ j →
    (∀ k, i ≤ k → k < j → rq k = []) →
    findReadyFrom rq i = some j := by
  intro n
  induction n with
  | zero =>
    intro i hi hij _
    exfalso
    omega
  | succ n ih =>
    intro i hi hij hmin
    rw [findReadyFrom]
    have hlt : i < PRIORITY_NUM := by omega
    by_cases hej : i = j
    · subst hej
      simp [hlt, hne]
    · have he : rq i = [] := hmin i (by omega) (by omega)
      simp only [hlt, if_pos, he, ne_eq, not_true_eq_false, if_false]
      exact ih (i + 1) (by omega) (by omega) (fun k hk1 hk2 => hmin k (by omega) hk2)

/-- C1: for every ready-queue state, `schedule` sets `current` to the
head of the lowest-indexed non-empty queue (leaving everything else
unchanged); if every queue is empty, it enters the system-down path. -/
theorem schedule_selects_highest_priority (s : KernelState) :
    ((∀ k, k < PRIORITY_NUM → s.readyque k = []) →
      schedule s = .error .sysdown) ∧
    (∀ (j : Nat) (hd : Tid) (tl : List Tid),
      j < PRIORITY_NUM →
      s.readyque j = hd :: tl →
      (∀ k, k < j → s.readyque k = []) →
      schedule s = .ok { s with current := some hd }) := by
  constructor
  · intro hall
    unfold schedule
    rw [findReadyFrom_of_all_empty s.readyque PRIORITY_NUM 0 (by omega)
      (fun k _ hk => hall k hk)]
  · intro j hd tl hjlt hj hmin
    unfold schedule
    rw [findReadyFrom_of_min s.readyque j hjlt (by rw [hj]; simp) PRIORITY_NUM 0
      (by omega) (by omega) (fun k _ hk2 => hmin k hk2)]
    simp [hj]

/-- Base concrete kernel state for witnesses: empty tables. -/
def W0 : KernelState :=
  { threads := fun _ => TCB.zero,
    readyque := fun _ => [],
    current := none,
    msgboxes := fun _ => { receiver := none, fifo := [] },
    handlers := fun _ => none,
    threadStack := 0, heapNext := 0 }

/-- Witness state: only priority-3 queue non-empty, headed by thread 2. -/
def W1 : KernelState :=
  { W0 with readyque := fun k => if k = 3 then [2] else [] }

theorem schedule_selects_highest_priority_witness :
    schedule W0 = .error .sysdown ∧
    schedule W1 = .ok { W1 with current := some 2 } :=
  ⟨(schedule_selects_highest_priority W0).1 (by decide),
   (schedule_selects_highest_priority W1).2 3 2 [] (by decide) (by decide)
     (by decide)⟩

end Kozos

namespace Kozos

/-- C7: attach-current (`putcurrent`) appends a non-READY current thread
at the tail of `readyque[current->priority]` and marks it READY, leaving
every other queue and TCB unchanged; on an already-READY current thread
it returns the state entirely unchanged, so a second attach-current
after an attach-current is a no-op. -/
theorem putcurrent_idempotent (s : KernelState) (c : Tid)
    (hc : s.current = some c) :
    ((s.threads c).ready = true → putcurrent s = .ok s) ∧
    ((s.threads c).ready = false →
      0 ≤ (s.threads c).priority →
      (s.threads c).priority < (PRIORITY_NUM : Int) →
      ∃ s', putcurrent s = .ok s' ∧
        s'.readyque (s.threads c).priority.toNat =
          s.readyque (s.threads c).priority.toNat ++ [c] ∧
        (∀ k : Nat, k ≠ (s.threads c).priority.toNat →
          s'.readyque k = s.readyque k) ∧
        s'.threads c = { s.threads c with ready := true } ∧
        (∀ j : Tid, j ≠ c → s'.threads j = s.threads j) ∧
        s'.current = s.current ∧
        s'.msgboxes = s.msgboxes ∧
        putcurrent s' = .ok s') := by
  constructor
  · intro hr
    exact putcurrent_of_ready hc hr
  · intro hr h0 h1
    refine ⟨_, putcurrent_of_not_ready hc hr h0 h1, ?_, ?_, ?_, ?_, ?_, ?_, ?_⟩
    · simp
    · intro k hk
      simp only []
      rw [Function.update_noteq hk]
    · simp
    · intro j hj
      simp only []
      rw [Function.update_noteq hj]
    · rfl
    · rfl
    · apply putcurrent_of_ready
      · show s.current = some c
        exact hc
      · simp

end Kozos

namespace Kozos

/-- Witness state: thread 0 exists (priority 1, not READY) and is
current; all queues empty. -/
def W2 : KernelState :=
  { W0 with
    threads := Function.update (fun _ => TCB.zero) 0
      { TCB.zero with priority := 1, initFunc := some 5 },
    current := some 0 }

theorem putcurrent_idempotent_witness :
    ∃ s', putcurrent W2 = Except.ok s' ∧ putcurrent s' = Except.ok s' := by
  obtain ⟨s', h1, -, -, -, -, -, -, h8⟩ :=
    (putcurrent_idempotent W2 0 (by decide)).2 (by decide) (by decide) (by decide)
  exact ⟨s', h1, h8⟩

/-- C6: `thread_chpri` returns the caller's previous priority; the
priority field is assigned the new value iff it is ≥ 0; and the caller
is appended at the tail of the ready queue indexed by its (possibly
new) priority and marked READY. -/
theorem thread_chpri_spec (s : KernelState) (c : Tid) (np : Int)
    (hc : s.current = some c) (hr : (s.threads c).ready = false)
    (h0 : 0 ≤ (s.threads c).priority)
    (h1 : (s.threads c).priority < (PRIORITY_NUM : Int))
    (hnp : np < (PRIORITY_NUM : Int)) :
    ∃ s', thread_chpri s np = .ok (s', .int (s.threads c).priority) ∧
      (s'.threads c).ready = true ∧
      (0 ≤ np →
        (s'.threads c).priority = np ∧
        s'.readyque np.toNat = s.readyque np.toNat ++ [c]) ∧
      (np < 0 →
        (s'.threads c).priority = (s.threads c).priority ∧
        s'.readyque (s.threads c).priority.toNat =
          s.readyque (s.threads c).priority.toNat ++ [c]) := by
  unfold thread_chpri
  rw [hc]
  by_cases hge : np ≥ 0
  · simp only [hge, if_pos]
    set t1 : TCB := { s.threads c with priority := np } with ht1
    set s1 : KernelState :=
      { s with threads := Function.update s.threads c t1, current := some c } with hs1
    have hc1 : s1.current = some c := rfl
    have ht1c : s1.threads c = t1 := by simp [hs1]
    have hr1 : (s1.threads c).ready = false := by rw [ht1c]; exact hr
    have hp1 : (s1.threads c).priority = np := by rw [ht1c]
    rw [putcurrent_of_not_ready hc1 hr1 (by rw [hp1]; exact hge)
      (by rw [hp1]; exact hnp)]
    refine ⟨_, rfl, ?_, ?_, ?_⟩
    · simp [ht1c]
    · intro _
      refine ⟨by simp [ht1c], ?_⟩
      have hval : (Function.update s.threads c t1 c).priority = np :=
        congrArg TCB.priority (Function.update_same c t1 s.threads)
      rw [hval]
      simp
    · intro hlt
      exact absurd hlt (by omega)
  · simp only [hge, if_neg, if_false]
    rw [putcurrent_of_not_ready hc hr h0 h1]
    refine ⟨_, rfl, by simp, ?_, ?_⟩
    · intro hge'
      exact hge'.elim
    · intro _
      exact ⟨by simp, by simp⟩

end Kozos

namespace Kozos

theorem thread_chpri_spec_witness :
    ∃ s', thread_chpri W2 5 = Except.ok (s', SysRet.int 1) ∧
      (s'.threads 0).priority = 5 ∧
      s'.readyque 5 = [0] := by
  obtain ⟨s', h1, -, h3, -⟩ :=
    thread_chpri_spec W2 0 5 (by decide) (by decide) (by decide) (by decide)
      (by decide)
  obtain ⟨hp, hq⟩ := h3 (by decide)
  exact ⟨s', h1, hp, hq⟩

/-- C10: `thread_chpri` performs no upper-bound check: any requested
priority ≥ 0 is assigned, and the re-attach then indexes
`readyque[current->priority]`; for a request ≥ `PRIORITY_NUM` that
index is outside the ready-queue array (undefined behaviour), while a
request in `[0, PRIORITY_NUM)` stays in bounds and succeeds. -/
theorem thread_chpri_no_upper_bound_check (s : KernelState) (c : Tid)
    (np : Int)
    (hc : s.current = some c) (hr : (s.threads c).ready = false)
    (h0 : 0 ≤ (s.threads c).priority)
    (h1 : (s.threads c).priority < (PRIORITY_NUM : Int)) :
    ((PRIORITY_NUM : Int) ≤ np → thread_chpri s np = .error .oob) ∧
    (0 ≤ np → np < (PRIORITY_NUM : Int) →
      ∃ s' r, thread_chpri s np = .ok (s', r) ∧
        (s'.threads c).priority = np ∧
        s'.readyque np.toNat = s.readyque np.toNat ++ [c]) := by
  constructor
  · intro hbig
    unfold thread_chpri
    rw [hc]
    have hge : np ≥ 0 := by
      have : (0 : Int) ≤ (PRIORITY_NUM : Int) := by simp [PRIORITY_NUM]
      omega
    simp only [hge, if_pos]
    set t1 : TCB := { s.threads c with priority := np } with ht1
    set s1 : KernelState :=
      { s with threads := Function.update s.threads c t1, current := some c }
      with hs1
    have hc1 : s1.current = some c := rfl
    have ht1c : s1.threads c = t1 := by simp [hs1]
    have hr1 : (s1.threads c).ready = false := by rw [ht1c]; exact hr
    have hp1 : (s1.threads c).priority = np := by rw [ht1c]
    rw [putcurrent_oob hc1 hr1 (by rw [hp1]; intro hand; omega)]
    rfl
  · intro hge hlt
    unfold thread_chpri
    rw [hc]
    have hge' : np ≥ 0 := hge
    simp only [hge', if_pos]
    set t1 : TCB := { s.threads c with priority := np } with ht1
    set s1 : KernelState :=
      { s with threads := Function.update s.threads c t1, current := some c }
      with hs1
    have hc1 : s1.current = some c := rfl
    have ht1c : s1.threads c = t1 := by simp [hs1]
    have hr1 : (s1.threads c).ready = false := by rw [ht1c]; exact hr
    have hp1 : (s1.threads c).priority = np := by rw [ht1c]
    rw [putcurrent_of_not_ready hc1 hr1 (by rw [hp1]; exact hge)
      (by rw [hp1]; exact hlt)]
    refine ⟨_, _, rfl, by simp [ht1c], ?_⟩
    have hval : (Function.update s.threads c t1 c).priority = np :=
      congrArg TCB.priority (Function.update_same c t1 s.threads)
    rw [hval]
    simp

theorem thread_chpri_no_upper_bound_check_witness :
    thread_chpri W2 16 = .error .oob ∧
    (∃ s' r, thread_chpri W2 5 = .ok (s', r) ∧
      (s'.threads 0).priority = 5 ∧
      s'.readyque 5 = W2.readyque 5 ++ [0]) :=
  ⟨(thread_chpri_no_upper_bound_check W2 0 16 (by decide) (by decide)
      (by decide) (by decide)).1 (by decide),
   (thread_chpri_no_upper_bound_check W2 0 5 (by decide) (by decide)
      (by decide) (by decide)).2 (by decide) (by decide)⟩

end Kozos

namespace Kozos

/-- `Except` bind on a success, specialised for rewriting. -/
theorem kbind_ok {α β : Type} (a : α) (f : α → Except KErr β) :
    (do
      let x ← (Except.ok a : Except KErr α)
      f x) = f a := rfl

/-- `Except` bind on an error, specialised for rewriting. -/
theorem kbind_err {α β : Type} (e : KErr) (f : α → Except KErr β) :
    (do
      let x ← (Except.error e : Except KErr α)
      f x) = Except.error e := rfl

theorem findFreeFrom_of_all_full (th : Tid → TCB) :
    ∀ n i, THREAD_NUM - i ≤ n →
    (∀ k : Tid, i ≤ (k : Nat) → (th k).initFunc ≠ none) →
    findFreeFrom th i = none := by
  intro n
  induction n with
  | zero =>
    intro i hi _
    rw [findFreeFrom]
    have : ¬ i < THREAD_NUM := by omega
    simp [this]
  | succ n ih =>
    intro i hi hall
    rw [findFreeFrom]
    by_cases h : i < THREAD_NUM
    · have he : (th ⟨i, h⟩).initFunc ≠ none := hall ⟨i, h⟩ (by simp)
      simp only [h, dif_pos, he, if_false]
      exact ih (i + 1) (by omega) (fun k hk => hall k (by omega))
    · simp [h]

theorem findFreeFrom_of_min (th : Tid → TCB) (j : Tid)
    (hfree : (th j).initFunc = none) :
    ∀ n i, THREAD_NUM - i ≤ n → i ≤ (j : Nat) →
    (∀ k : Tid, i ≤ (k : Nat) → (k : Nat) < (j : Nat) → (th k).initFunc ≠ none) →
    findFreeFrom th i = some j := by
  intro n
  induction n with
  | zero =>
    intro i hi hij _
    exfalso
    have := j.isLt
    omega
  | succ n ih =>
    intro i hi hij hmin
    rw [findFreeFrom]
    have hlt : i < THREAD_NUM := by have := j.isLt; omega
    by_cases hej : i = (j : Nat)
    · have hfin : (⟨i, hlt⟩ : Tid) = j := Fin.ext hej
      rw [dif_pos hlt, hfin]
      simp [hfree]
    · have he : (th ⟨i, hlt⟩).initFunc ≠ none :=
        hmin ⟨i, hlt⟩ (by simp) (by simpa using by omega)
      simp only [hlt, dif_pos, he, if_false]
      exact ih (i + 1) (by omega) (by omega) (fun k hk1 hk2 => hmin k (by omega) hk2)

end Kozos

namespace Kozos

/-- C4: `thread_run` searches the TCB table for the first free slot
(null entry function); with no free slot it returns -1 and changes no
state at all. Otherwise it primes the slot's TCB (name, priority, init
triple, stack carved at the bump pointer, initial frame of nine 4-byte
words), attaches the new thread to the ready queue of its priority,
re-attaches the caller, and returns the new thread's id. -/
theorem thread_run_spec (s : KernelState) (c : Tid) (func : Nat)
    (name : String) (pr : Int) (ss : Nat) (ac : Int) (av : Nat)
    (hc : s.current = some c) (hr : (s.threads c).ready = false)
    (hcp0 : 0 ≤ (s.threads c).priority)
    (hcp1 : (s.threads c).priority < (PRIORITY_NUM : Int))
    (hlive : (s.threads c).initFunc ≠ none) :
    ((∀ k : Tid, (s.threads k).initFunc ≠ none) →
      thread_run s func name pr ss ac av = .ok (s, .tid .neg1)) ∧
    (∀ i : Tid, (s.threads i).initFunc = none →
      (∀ k : Tid, (k : Nat) < (i : Nat) → (s.threads k).initFunc ≠ none) →
      0 ≤ pr → pr < (PRIORITY_NUM : Int) →
      ∃ s', thread_run s func name pr ss ac av = .ok (s', .tid (.tcb i)) ∧
        s'.threads i = { name := name,
                         priority := pr,
                         stack := s.threadStack + ss,
                         ready := true,
                         initFunc := some func,
                         initArgc := ac,
                         initArgv := av,
                         sp := s.threadStack + ss - 36,
                         recvRet := .null,
                         recvHasSizep := false,
                         recvHasPp := false,
                         recvSizeOut := 0,
                         recvPOut := 0 } ∧
        s'.threadStack = s.threadStack + ss ∧
        s'.current = some i ∧
        (s'.threads c).ready = true ∧
        c ∈ s'.readyque (s.threads c).priority.toNat ∧
        i ∈ s'.readyque pr.toNat) := by
  constructor
  · intro hall
    unfold thread_run
    rw [findFreeFrom_of_all_full s.threads THREAD_NUM 0 (by omega)
      (fun k _ => hall k)]
  · intro i hfree hmin hpr0 hpr1
    have hic : i ≠ c := by
      intro he
      rw [he] at hfree
      exact hlive hfree
    unfold thread_run
    rw [findFreeFrom_of_min s.threads i hfree THREAD_NUM 0 (by omega)
      (by omega) (fun k _ hk2 => hmin k hk2)]
    dsimp only
    set t : TCB := { TCB.zero with
      name := name, priority := pr, ready := false,
      initFunc := some func, initArgc := ac, initArgv := av,
      stack := s.threadStack + ss, sp := s.threadStack + ss - 36 } with ht
    set s1 : KernelState := { s with
      threads := Function.update s.threads i t,
      threadStack := s.threadStack + ss } with hs1
    have hc1 : s1.current = some c := hc
    have hthc : s1.threads c = s.threads c :=
      Function.update_noteq (Ne.symm hic) t s.threads
    have hr1 : (s1.threads c).ready = false := by rw [hthc]; exact hr
    rw [putcurrent_of_not_ready hc1 hr1 (by rw [hthc]; exact hcp0)
      (by rw [hthc]; exact hcp1)]
    rw [kbind_ok]
    set cp : Nat := (s1.threads c).priority.toNat with hcp
    set s2 : KernelState := { s1 with
      readyque := Function.update s1.readyque cp (s1.readyque cp ++ [c]),
      threads := Function.update s1.threads c { s1.threads c with ready := true } }
      with hs2
    dsimp only
    set s3 : KernelState := { s2 with current := some i } with hs3
    have hc3 : s3.current = some i := rfl
    have hti : s3.threads i = t := by
      show Function.update s1.threads c _ i = t
      rw [Function.update_noteq hic]
      show Function.update s.threads i t i = t
      rw [Function.update_same]
    have hr3 : (s3.threads i).ready = false := by rw [hti]
    have hp3 : (s3.threads i).priority = pr := by rw [hti]
    rw [putcurrent_of_not_ready hc3 hr3 (by rw [hp3]; exact hpr0)
      (by rw [hp3]; exact hpr1)]
    rw [kbind_ok]
    refine ⟨_, rfl, ?_, ?_, ?_, ?_, ?_, ?_⟩
    · show Function.update s3.threads i { s3.threads i with ready := true } i = _
      rw [Function.update_same, hti, ht]
      rfl
    · rfl
    · rfl
    · show (Function.update s3.threads i { s3.threads i with ready := true } c).ready = true
      rw [Function.update_noteq (Ne.symm hic)]
      show (Function.update s1.threads c { s1.threads c with ready := true } c).ready = true
      rw [Function.update_same]
    · show c ∈ Function.update s3.readyque (s3.threads i).priority.toNat
        (s3.readyque (s3.threads i).priority.toNat ++ [i])
        (s.threads c).priority.toNat
      rw [Function.update_apply]
      have hq3 : ∀ k, s3.readyque k =
          Function.update s.readyque cp (s.readyque cp ++ [c]) k := by
        intro k
        rfl
      split_ifs with hidx
      · have hcp' : cp = (s.threads c).priority.toNat := by rw [hcp, hthc]
        rw [hq3, ← hidx, ← hcp', Function.update_same]
        simp
      · rw [hq3, hcp, hthc, Function.update_same]
        simp
    · show i ∈ Function.update s3.readyque (s3.threads i).priority.toNat
        (s3.readyque (s3.threads i).priority.toNat ++ [i]) pr.toNat
      rw [hp3, Function.update_same]
      simp

end Kozos

namespace Kozos

/-- Witness state: every TCB slot is live (non-null entry function);
thread 0 is current, detached. -/
def W3 : KernelState :=
  { W0 with
    threads := fun _ => { TCB.zero with initFunc := some 9 },
    current := some 0 }

theorem thread_run_spec_witness :
    thread_run W3 7 "w" 2 64 0 0 = .ok (W3, .tid .neg1) ∧
    (∃ s', thread_run W2 7 "w" 2 64 0 0 = .ok (s', .tid (.tcb 1)) ∧
      s'.current = some 1) := by
  constructor
  · exact (thread_run_spec W3 0 7 "w" 2 64 0 0 (by decide) (by decide)
      (by decide) (by decide) (by decide)).1 (by decide)
  · obtain ⟨s', h1, -, -, h4, -, -, -⟩ :=
      (thread_run_spec W2 0 7 "w" 2 64 0 0 (by decide) (by decide)
        (by decide) (by decide) (by decide)).2 1 (by decide) (by decide)
        (by decide) (by decide)
    exact ⟨s', h1, h4⟩

/-- C9: in both `thread_run` and `thread_wakeup` the caller is appended
to its ready queue before the new (resp. woken) thread, so at equal
priority the caller precedes the target in that FIFO queue; and on
return `current` designates the new (resp. woken) thread. -/
theorem run_wakeup_queue_order (s : KernelState) (c : Tid)
    (hc : s.current = some c) (hr : (s.threads c).ready = false)
    (hcp0 : 0 ≤ (s.threads c).priority)
    (hcp1 : (s.threads c).priority < (PRIORITY_NUM : Int)) :
    (∀ (func : Nat) (name : String) (ss : Nat) (ac : Int) (av : Nat)
      (i : Tid),
      (s.threads i).initFunc = none →
      (∀ k : Tid, (k : Nat) < (i : Nat) → (s.threads k).initFunc ≠ none) →
      (s.threads c).initFunc ≠ none →
      ∃ s', thread_run s func name (s.threads c).priority ss ac av =
          .ok (s', .tid (.tcb i)) ∧
        s'.readyque (s.threads c).priority.toNat =
          s.readyque (s.threads c).priority.toNat ++ [c, i] ∧
        s'.current = some i) ∧
    (∀ tgt : Tid, tgt ≠ c → (s.threads tgt).ready = false →
      (s.threads tgt).priority = (s.threads c).priority →
      ∃ s', thread_wakeup s tgt = .ok (s', .int 0) ∧
        s'.readyque (s.threads c).priority.toNat =
          s.readyque (s.threads c).priority.toNat ++ [c, tgt] ∧
        s'.current = some tgt) := by
  constructor
  · intro func name ss ac av i hfree hmin hlive
    have hic : i ≠ c := by
      intro he
      rw [he] at hfree
      exact hlive hfree
    unfold thread_run
    rw [findFreeFrom_of_min s.threads i hfree THREAD_NUM 0 (by omega)
      (by omega) (fun k _ hk2 => hmin k hk2)]
    dsimp only
    set t : TCB := { TCB.zero with
      name := name, priority := (s.threads c).priority, ready := false,
      initFunc := some func, initArgc := ac, initArgv := av,
      stack := s.threadStack + ss, sp := s.threadStack + ss - 36 } with ht
    set s1 : KernelState := { s with
      threads := Function.update s.threads i t,
      threadStack := s.threadStack + ss } with hs1
    have hc1 : s1.current = some c := hc
    have hthc : s1.threads c = s.threads c :=
      Function.update_noteq (Ne.symm hic) t s.threads
    have hr1 : (s1.threads c).ready = false := by rw [hthc]; exact hr
    rw [putcurrent_of_not_ready hc1 hr1 (by rw [hthc]; exact hcp0)
      (by rw [hthc]; exact hcp1)]
    rw [kbind_ok]
    set cp : Nat := (s1.threads c).priority.toNat with hcp
    dsimp only
    set s2 : KernelState := { s1 with
      readyque := Function.update s1.readyque cp (s1.readyque cp ++ [c]),
      threads := Function.update s1.threads c { s1.threads c with ready := true } }
      with hs2
    set s3 : KernelState := { s2 with current := some i } with hs3
    have hc3 : s3.current = some i := rfl
    have hti : s3.threads i = t := by
      show Function.update s1.threads c _ i = t
      rw [Function.update_noteq hic]
      show Function.update s.threads i t i = t
      rw [Function.update_same]
    have hr3 : (s3.threads i).ready = false := by rw [hti]
    have hp3 : (s3.threads i).priority = (s.threads c).priority := by rw [hti]
    rw [putcurrent_of_not_ready hc3 hr3 (by rw [hp3]; exact hcp0)
      (by rw [hp3]; exact hcp1)]
    rw [kbind_ok]
    refine ⟨_, rfl, ?_, rfl⟩
    have hcp' : cp = (s.threads c).priority.toNat := by rw [hcp, hthc]
    show Function.update s3.readyque (s3.threads i).priority.toNat
      (s3.readyque (s3.threads i).priority.toNat ++ [i])
      (s.threads c).priority.toNat = _
    rw [hp3, Function.update_same]
    have hq3 : s3.readyque (s.threads c).priority.toNat =
        s.readyque (s.threads c).priority.toNat ++ [c] := by
      show Function.update s1.readyque cp (s1.readyque cp ++ [c])
        (s.threads c).priority.toNat = _
      rw [← hcp']
      rw [Function.update_same]
    rw [hq3]
    simp
  · intro tgt htc hrt hpt
    unfold thread_wakeup
    rw [putcurrent_of_not_ready hc hr hcp0 hcp1]
    rw [kbind_ok]
    set cp : Nat := (s.threads c).priority.toNat with hcp
    dsimp only
    set s2 : KernelState := { s with
      readyque := Function.update s.readyque cp (s.readyque cp ++ [c]),
      threads := Function.update s.threads c { s.threads c with ready := true } }
      with hs2
    set s3 : KernelState := { s2 with current := some tgt } with hs3
    have hc3 : s3.current = some tgt := rfl
    have htt : s3.threads tgt = s.threads tgt := by
      show Function.update s.threads c _ tgt = s.threads tgt
      rw [Function.update_noteq htc]
    have hr3 : (s3.threads tgt).ready = false := by rw [htt]; exact hrt
    have hp3 : (s3.threads tgt).priority = (s.threads c).priority := by
      rw [htt]; exact hpt
    rw [putcurrent_of_not_ready hc3 hr3 (by rw [hp3]; exact hcp0)
      (by rw [hp3]; exact hcp1)]
    rw [kbind_ok]
    refine ⟨_, rfl, ?_, rfl⟩
    show Function.update s3.readyque (s3.threads tgt).priority.toNat
      (s3.readyque (s3.threads tgt).priority.toNat ++ [tgt])
      (s.threads c).priority.toNat = _
    rw [hp3, Function.update_same]
    have hq3 : s3.readyque (s.threads c).priority.toNat =
        s.readyque (s.threads c).priority.toNat ++ [c] := by
      show Function.update s.readyque cp (s.readyque cp ++ [c])
        (s.threads c).priority.toNat = _
      rw [← hcp, Function.update_same]
    rw [hq3]
    simp

/-- Witness state: threads 0 and 1 both live at priority 1; thread 0 is
current, both detached. -/
def W4 : KernelState :=
  { W0 with
    threads := Function.update
      (Function.update (fun _ => TCB.zero) 0
        { TCB.zero with priority := 1, initFunc := some 5 }) 1
      { TCB.zero with priority := 1, initFunc := some 6 },
    current := some 0 }

theorem run_wakeup_queue_order_witness :
    (∃ s', thread_run W2 7 "w" 1 64 0 0 = .ok (s', .tid (.tcb 1)) ∧
      s'.readyque 1 = [0, 1] ∧ s'.current = some 1) ∧
    (∃ s', thread_wakeup W4 1 = .ok (s', .int 0) ∧
      s'.readyque 1 = [0, 1] ∧ s'.current = some 1) := by
  constructor
  · obtain ⟨s', h1, h2, h3⟩ :=
      (run_wakeup_queue_order W2 0 (by decide) (by decide) (by decide)
        (by decide)).1 7 "w" 64 0 0 1 (by decide) (by decide) (by decide)
    exact ⟨s', h1, h2, h3⟩
  · obtain ⟨s', h1, h2, h3⟩ :=
      (run_wakeup_queue_order W4 0 (by decide) (by decide) (by decide)
        (by decide)).2 1 (by decide) (by decide) (by decide)
    exact ⟨s', h1, h2, h3⟩

end Kozos

namespace Kozos

theorem recvWrite_recvRet (t : TCB) (mp : MsgBuf) :
    (recvWrite t mp).recvRet =
      (match mp.sender with
       | none => TIdVal.null
       | some sid => TIdVal.tcb sid) := by
  unfold recvWrite
  dsimp only
  split_ifs <;> rfl

theorem recvWrite_sizeOut (t : TCB) (mp : MsgBuf)
    (h : t.recvHasSizep = true) :
    (recvWrite t mp).recvSizeOut = mp.size := by
  unfold recvWrite
  dsimp only
  split_ifs <;> simp_all

theorem recvWrite_pOut (t : TCB) (mp : MsgBuf)
    (h : t.recvHasPp = true) :
    (recvWrite t mp).recvPOut = mp.p := by
  unfold recvWrite
  dsimp only
  split_ifs <;> simp_all

theorem recvWrite_ready (t : TCB) (mp : MsgBuf) :
    (recvWrite t mp).ready = t.ready := by
  unfold recvWrite
  dsimp only
  split_ifs <;> rfl

theorem recvWrite_priority (t : TCB) (mp : MsgBuf) :
    (recvWrite t mp).priority = t.priority := by
  unfold recvWrite
  dsimp only
  split_ifs <;> rfl

theorem sendmsg_eq (s : KernelState) (mb : Fin MSGBOX_ID_NUM)
    (thp : Option Tid) (size : Int) (p : Nat) :
    sendmsg s mb thp size p = .ok { s with
      heapNext := s.heapNext + 13,
      msgboxes := Function.update s.msgboxes mb
        { receiver := (s.msgboxes mb).receiver,
          fifo := (s.msgboxes mb).fifo ++
            [{ sender := thp, size := size, p := p }] } } := rfl

theorem recvmsg_eq (s : KernelState) (mb : Fin MSGBOX_ID_NUM) (r : Tid)
    (mp : MsgBuf) (rest : List MsgBuf)
    (hf : (s.msgboxes mb).fifo = mp :: rest)
    (hrecv : (s.msgboxes mb).receiver = some r) :
    recvmsg s mb = .ok { s with
      threads := Function.update s.threads r (recvWrite (s.threads r) mp),
      msgboxes := Function.update s.msgboxes mb
        { receiver := none, fifo := rest } } := by
  unfold recvmsg
  dsimp only
  rw [hf, hrecv]
  rfl

end Kozos

namespace Kozos

/-- The receiver-present path of `thread_send`, shared between the SEND
and RECV analyses: with a parked receiver, the freshly appended buffer
joins the FIFO, the head buffer is delivered to the receiver and both
receiver and caller end up READY. -/
theorem send_with_receiver (s : KernelState) (c : Tid) (id : Nat)
    (size : Int) (p : Nat) (hid : id < MSGBOX_ID_NUM)
    (hc : s.current = some c) (hr : (s.threads c).ready = false)
    (hcp0 : 0 ≤ (s.threads c).priority)
    (hcp1 : (s.threads c).priority < (PRIORITY_NUM : Int))
    (r : Tid) (hrecv : (s.msgboxes ⟨id, hid⟩).receiver = some r)
    (hrc : r ≠ c) (hrr : (s.threads r).ready = false)
    (hrp0 : 0 ≤ (s.threads r).priority)
    (hrp1 : (s.threads r).priority < (PRIORITY_NUM : Int)) :
    ∃ s' hd rest,
      (s.msgboxes ⟨id, hid⟩).fifo ++
        [{ sender := some c, size := size, p := p }] = hd :: rest ∧
      thread_send s id size p = .ok (s', .int size) ∧
      (s'.msgboxes ⟨id, hid⟩).fifo = rest ∧
      (s'.msgboxes ⟨id, hid⟩).receiver = none ∧
      (s'.threads r).recvRet =
        (match hd.sender with
         | none => TIdVal.null
         | some sid => TIdVal.tcb sid) ∧
      ((s.threads r).recvHasSizep = true →
        (s'.threads r).recvSizeOut = hd.size) ∧
      ((s.threads r).recvHasPp = true →
        (s'.threads r).recvPOut = hd.p) ∧
      (s'.threads r).ready = true ∧
      r ∈ s'.readyque (s.threads r).priority.toNat ∧
      (s'.threads c).ready = true ∧
      c ∈ s'.readyque (s.threads c).priority.toNat := by
  unfold thread_send
  rw [dif_pos hid]
  rw [putcurrent_of_not_ready hc hr hcp0 hcp1]
  rw [kbind_ok]
  dsimp only
  rw [hc]
  set cp : Nat := (s.threads c).priority.toNat with hcp
  rw [sendmsg_eq]
  rw [kbind_ok]
  dsimp only
  rw [Function.update_same]
  dsimp only
  rw [hrecv]
  obtain ⟨hd, rest, hqe⟩ : ∃ hd rest,
      (s.msgboxes ⟨id, hid⟩).fifo ++
        [{ sender := some c, size := size, p := p }] = hd :: rest := by
    cases hq : (s.msgboxes ⟨id, hid⟩).fifo with
    | nil => exact ⟨_, _, rfl⟩
    | cons a l =>
      exact ⟨a, l ++ [{ sender := some c, size := size, p := p }], by simp⟩
  dsimp only
  rw [recvmsg_eq _ ⟨id, hid⟩ r hd rest ?hf3 ?hrecv3]
  case hf3 =>
    dsimp only
    rw [Function.update_same]
    exact hqe
  case hrecv3 =>
    dsimp only
    rw [Function.update_same]
  rw [kbind_ok]
  dsimp only
  rw [putcurrent_of_not_ready (c := r) ?hc4 ?hr4 ?hp40 ?hp41]
  case hc4 => rfl
  case hr4 =>
    dsimp only
    rw [Function.update_same, recvWrite_ready, Function.update_apply]
    simp [hrc, hrr]
  case hp40 =>
    dsimp only
    rw [Function.update_same, recvWrite_priority, Function.update_apply]
    simp only [hrc, if_neg, if_false]
    simpa [hrc] using hrp0
  case hp41 =>
    dsimp only
    rw [Function.update_same, recvWrite_priority, Function.update_apply]
    simp only [hrc, if_neg, if_false]
    simpa [hrc] using hrp1
  rw [kbind_ok]
  refine ⟨_, hd, rest, hqe, rfl, ?_, ?_, ?_, ?_, ?_, ?_, ?_, ?_, ?_⟩
  · dsimp only
    rw [Function.update_same]
  · dsimp only
    rw [Function.update_same]
  · dsimp only
    rw [Function.update_same]
    dsimp only
    rw [Function.update_same, recvWrite_recvRet]
  · intro hsz
    dsimp only
    rw [Function.update_same]
    dsimp only
    rw [Function.update_same]
    rw [recvWrite_sizeOut]
    rw [Function.update_apply]
    simp [hrc, hsz]
  · intro hpp
    dsimp only
    rw [Function.update_same]
    dsimp only
    rw [Function.update_same]
    rw [recvWrite_pOut]
    rw [Function.update_apply]
    simp [hrc, hpp]
  · dsimp only
    rw [Function.update_same]
  · have hcr : c ≠ r := Ne.symm hrc
    dsimp only
    simp [Function.update_apply, recvWrite_priority, hrc, hcr]
  · have hcr : c ≠ r := Ne.symm hrc
    dsimp only
    simp [Function.update_apply, hrc, hcr]
  · have hcr : c ≠ r := Ne.symm hrc
    dsimp only
    simp only [Function.update_apply, recvWrite_priority, hrc, hcr,
      if_neg, if_false]
    split_ifs <;>
      first
        | (rename_i ha hb
           exact absurd ha.symm hb)
        | simp


/-- C2: `thread_send` appends a new buffer carrying sender, size and
payload pointer at the mailbox FIFO tail and re-attaches the caller; if
a receiver is parked, the head buffer is dequeued, its sender / size /
payload are written into the receiver's recv result slot (size and
payload through the non-null out-pointers), the receiver slot is
cleared and the receiver re-attached; SEND returns the size argument. -/
theorem thread_send_spec (s : KernelState) (c : Tid) (id : Nat)
    (size : Int) (p : Nat) (hid : id < MSGBOX_ID_NUM)
    (hc : s.current = some c) (hr : (s.threads c).ready = false)
    (hcp0 : 0 ≤ (s.threads c).priority)
    (hcp1 : (s.threads c).priority < (PRIORITY_NUM : Int)) :
    ((s.msgboxes ⟨id, hid⟩).receiver = none →
      ∃ s', thread_send s id size p = .ok (s', .int size) ∧
        (s'.msgboxes ⟨id, hid⟩).fifo =
          (s.msgboxes ⟨id, hid⟩).fifo ++
            [{ sender := some c, size := size, p := p }] ∧
        (s'.msgboxes ⟨id, hid⟩).receiver = none ∧
        (s'.threads c).ready = true ∧
        c ∈ s'.readyque (s.threads c).priority.toNat) ∧
    (∀ r : Tid, (s.msgboxes ⟨id, hid⟩).receiver = some r →
      r ≠ c → (s.threads r).ready = false →
      0 ≤ (s.threads r).priority →
      (s.threads r).priority < (PRIORITY_NUM : Int) →
      ∃ s' hd rest,
        (s.msgboxes ⟨id, hid⟩).fifo ++
          [{ sender := some c, size := size, p := p }] = hd :: rest ∧
        thread_send s id size p = .ok (s', .int size) ∧
        (s'.msgboxes ⟨id, hid⟩).fifo = rest ∧
        (s'.msgboxes ⟨id, hid⟩).receiver = none ∧
        (s'.threads r).recvRet =
          (match hd.sender with
           | none => TIdVal.null
           | some sid => TIdVal.tcb sid) ∧
        ((s.threads r).recvHasSizep = true →
          (s'.threads r).recvSizeOut = hd.size) ∧
        ((s.threads r).recvHasPp = true →
          (s'.threads r).recvPOut = hd.p) ∧
        (s'.threads r).ready = true ∧
        r ∈ s'.readyque (s.threads r).priority.toNat ∧
        (s'.threads c).ready = true ∧
        c ∈ s'.readyque (s.threads c).priority.toNat) := by
  constructor
  · intro hrecv
    unfold thread_send
    rw [dif_pos hid]
    rw [putcurrent_of_not_ready hc hr hcp0 hcp1]
    rw [kbind_ok]
    dsimp only
    rw [hc]
    rw [sendmsg_eq]
    rw [kbind_ok]
    dsimp only
    rw [Function.update_same]
    dsimp only
    rw [hrecv]
    refine ⟨_, rfl, ?_, ?_, ?_, ?_⟩
    · simp
    · simp [hrecv]
    · simp
    · simp
  · intro r hrecv hrc hrr hrp0 hrp1
    exact send_with_receiver s c id size p hid hc hr hcp0 hcp1 r hrecv hrc
      hrr hrp0 hrp1

end Kozos

namespace Kozos

/-- TCB of a thread blocked in `RECV` with both out-pointers non-null. -/
def W5tcb : TCB :=
  { TCB.zero with
    priority := 1, initFunc := some 6,
    recvHasSizep := true, recvHasPp := true }

/-- Mailbox 0 with thread 1 parked as receiver and an empty FIFO. -/
def W5box : MsgBox := { receiver := some 1, fifo := [] }

/-- Witness state: like `W4` but thread 1 is parked as receiver on
mailbox 0 (blocked `RECV` with both out-pointers non-null). -/
def W5 : KernelState :=
  { W4 with
    threads := Function.update W4.threads 1 W5tcb,
    msgboxes := Function.update W0.msgboxes 0 W5box }

theorem thread_send_spec_witness :
    (∃ s', thread_send W4 0 15 7 = Except.ok (s', SysRet.int 15) ∧
      (s'.msgboxes ⟨0, by decide⟩).fifo =
        [{ sender := some 0, size := 15, p := 7 }]) ∧
    (∃ s', thread_send W5 0 15 7 = Except.ok (s', SysRet.int 15) ∧
      (s'.threads 1).recvRet = TIdVal.tcb 0 ∧
      (s'.threads 1).recvSizeOut = 15 ∧
      (s'.threads 1).recvPOut = 7) := by
  constructor
  · obtain ⟨s', h1, h2, -, -, -⟩ :=
      (thread_send_spec W4 0 0 15 7 (by decide) (by decide) (by decide)
        (by decide) (by decide)).1 (by decide)
    exact ⟨s', h1, h2⟩
  · obtain ⟨s', hd, rest, hqe, heq, -, -, hret, hsz, hpp, -, -, -, -⟩ :=
      (thread_send_spec W5 0 0 15 7 (by decide) (by decide) (by decide)
        (by decide) (by decide)).2 1 (by decide) (by decide) (by decide)
        (by decide) (by decide)
    have hqe2 : ({ sender := some (0 : Tid), size := (15 : Int), p := 7 } :
        MsgBuf) :: ([] : List MsgBuf) = hd :: rest := hqe
    injection hqe2 with hh ht
    refine ⟨s', heq, ?_, ?_, ?_⟩
    · rw [hret, ← hh]
    · rw [hsz (by decide), ← hh]
    · rw [hpp (by decide), ← hh]

end Kozos

namespace Kozos

/-- The kernel state after a RECV on an empty mailbox blocks the
caller: out-pointer flags recorded, caller detached from the head of
its queue with READY cleared, -1 stored in its recv result slot, and
the caller parked as the mailbox receiver. -/
def recvBlockedState (s : KernelState) (c : Tid) (mb : Fin MSGBOX_ID_NUM)
    (hs hp : Bool) : KernelState :=
  let t : TCB :=
    { s.threads c with
      ready := false, recvRet := .neg1,
      recvHasSizep := hs, recvHasPp := hp }
  { s with
    threads := Function.update s.threads c t,
    readyque := Function.update s.readyque (s.threads c).priority.toNat
      (s.readyque (s.threads c).priority.toNat).tail,
    msgboxes := Function.update s.msgboxes mb
      ({ receiver := some c, fifo := [] } : MsgBox) }

/-- C3: on a RECV request, a second receiver on the same mailbox is a
protocol violation ending in system-down; otherwise the caller is
parked as receiver. With an empty FIFO it is left detached (blocked)
with -1 written into its recv result slot as a placeholder —
overwritten with the real sender id, together with the re-attach, by
the delivery performed inside the matching future SEND (hence before
the blocked thread can resume). With a non-empty FIFO the head buffer
is delivered synchronously: it is dequeued, the result slot gets the
sender id (also the returned value), size and payload go through the
non-null out-pointers, and the caller is re-attached. -/
theorem thread_recv_blocked_spec (s : KernelState) (c : Tid) (id : Nat)
    (hs hp : Bool) (hid : id < MSGBOX_ID_NUM)
    (hc : s.current = some c) (hr : (s.threads c).ready = true)
    (hcp0 : 0 ≤ (s.threads c).priority)
    (hcp1 : (s.threads c).priority < (PRIORITY_NUM : Int)) :
    (∀ r0 : Tid, (s.msgboxes ⟨id, hid⟩).receiver = some r0 →
      syscall_step s (.recv id hs hp) = .error .sysdown) ∧
    ((s.msgboxes ⟨id, hid⟩).receiver = none →
     (s.msgboxes ⟨id, hid⟩).fifo = [] →
      ∃ s', syscall_step s (.recv id hs hp) = .ok (s', .tid .neg1) ∧
        (s'.msgboxes ⟨id, hid⟩).receiver = some c ∧
        (s'.msgboxes ⟨id, hid⟩).fifo = [] ∧
        (s'.threads c).recvRet = TIdVal.neg1 ∧
        (s'.threads c).ready = false ∧
        (s'.threads c).priority = (s.threads c).priority ∧
        (s'.threads c).recvHasSizep = hs ∧
        (s'.threads c).recvHasPp = hp ∧
        s'.readyque (s.threads c).priority.toNat =
          (s.readyque (s.threads c).priority.toNat).tail ∧
        (∀ k, k ≠ (s.threads c).priority.toNat →
          s'.readyque k = s.readyque k) ∧
        (∀ j : Tid, j ≠ c → s'.threads j = s.threads j) ∧
        (∀ (c2 : Tid) (size : Int) (p2 : Nat), c2 ≠ c →
          (s'.threads c2).ready = false →
          0 ≤ (s'.threads c2).priority →
          (s'.threads c2).priority < (PRIORITY_NUM : Int) →
          ∃ s'', thread_send { s' with current := some c2 } id size p2 =
              .ok (s'', .int size) ∧
            (s''.threads c).recvRet = TIdVal.tcb c2 ∧
            (hs = true → (s''.threads c).recvSizeOut = size) ∧
            (hp = true → (s''.threads c).recvPOut = p2) ∧
            (s''.threads c).ready = true ∧
            c ∈ s''.readyque (s.threads c).priority.toNat)) ∧
    ((s.msgboxes ⟨id, hid⟩).receiver = none →
     ∀ (mp : MsgBuf) (rest : List MsgBuf),
      (s.msgboxes ⟨id, hid⟩).fifo = mp :: rest →
      ∃ s', syscall_step s (.recv id hs hp) =
          .ok (s', .tid (match mp.sender with
                         | none => TIdVal.null
                         | some sid => TIdVal.tcb sid)) ∧
        (s'.msgboxes ⟨id, hid⟩).receiver = none ∧
        (s'.msgboxes ⟨id, hid⟩).fifo = rest ∧
        (s'.threads c).recvRet =
          (match mp.sender with
           | none => TIdVal.null
           | some sid => TIdVal.tcb sid) ∧
        (hs = true → (s'.threads c).recvSizeOut = mp.size) ∧
        (hp = true → (s'.threads c).recvPOut = mp.p) ∧
        (s'.threads c).ready = true ∧
        c ∈ s'.readyque (s.threads c).priority.toNat) := by
  refine ⟨?_, ?_, ?_⟩
  · intro r0 hrecv
    unfold syscall_step
    rw [hc]
    dsimp only
    rw [getcurrent_of_ready (c := c) ?hca0 ?hra0 ?ha00 ?ha01]
    case hca0 => rfl
    case hra0 =>
      show (Function.update s.threads c _ c).ready = true
      rw [Function.update_same]
      exact hr
    case ha00 =>
      show 0 ≤ (Function.update s.threads c _ c).priority
      rw [Function.update_same]
      exact hcp0
    case ha01 =>
      show (Function.update s.threads c _ c).priority < (PRIORITY_NUM : Int)
      rw [Function.update_same]
      exact hcp1
    rw [kbind_ok]
    unfold call_functions
    dsimp only
    unfold thread_recv
    rw [dif_pos hid]
    dsimp only
    rw [hrecv]
    rfl
  · intro hrecv hfifo
    unfold syscall_step
    rw [hc]
    dsimp only
    rw [getcurrent_of_ready (c := c) ?hcb0 ?hrb0 ?hb00 ?hb01]
    case hcb0 => rfl
    case hrb0 =>
      show (Function.update s.threads c _ c).ready = true
      rw [Function.update_same]
      exact hr
    case hb00 =>
      show 0 ≤ (Function.update s.threads c _ c).priority
      rw [Function.update_same]
      exact hcp0
    case hb01 =>
      show (Function.update s.threads c _ c).priority < (PRIORITY_NUM : Int)
      rw [Function.update_same]
      exact hcp1
    rw [kbind_ok]
    simp only [Function.update_same]
    unfold call_functions
    dsimp only
    unfold thread_recv
    rw [dif_pos hid]
    dsimp only
    rw [hrecv]
    dsimp only
    simp only [Function.update_same]
    rw [hfifo]
    dsimp only
    rw [kbind_ok]
    dsimp only
    refine ⟨recvBlockedState s c ⟨id, hid⟩ hs hp,
      ?_, ?_, ?_, ?_, ?_, ?_, ?_, ?_, ?_, ?_, ?_, ?_⟩
    · unfold recvBlockedState
      dsimp only
      simp only [Function.update_same, Function.update_idem]
      rw [hc]
    · simp [recvBlockedState]
    · simp [recvBlockedState]
    · simp [recvBlockedState]
    · simp [recvBlockedState]
    · simp [recvBlockedState]
    · simp [recvBlockedState]
    · simp [recvBlockedState]
    · simp [recvBlockedState]
    · intro k hk
      simp [recvBlockedState, Function.update_apply, hk]
    · intro j hj
      simp [recvBlockedState, Function.update_apply, hj]
    · intro c2 size p2 hc2c hc2r hc2p0 hc2p1
      have hprX : (({ recvBlockedState s c ⟨id, hid⟩ hs hp with
          current := some c2 } : KernelState).threads c).priority =
          (s.threads c).priority := by
        simp [recvBlockedState]
      obtain ⟨s'', hd2, rest2, hqe2, heq2, -, -, hret2, hsz2, hpp2,
          hready2, hmem2, -, -⟩ :=
        send_with_receiver
          { recvBlockedState s c ⟨id, hid⟩ hs hp with current := some c2 }
          c2 id size p2 hid rfl hc2r hc2p0 hc2p1 c
          (by simp [recvBlockedState])
          (Ne.symm hc2c)
          (by simp [recvBlockedState])
          (by rw [hprX]; exact hcp0)
          (by rw [hprX]; exact hcp1)
      have hfx : (({ recvBlockedState s c ⟨id, hid⟩ hs hp with
          current := some c2 } : KernelState).msgboxes ⟨id, hid⟩).fifo = [] := by
        simp [recvBlockedState]
      rw [hfx] at hqe2
      simp only [List.nil_append, List.cons.injEq] at hqe2
      obtain ⟨hhd, hrest⟩ := hqe2
      refine ⟨s'', heq2, ?_, ?_, ?_, hready2, ?_⟩
      · rw [hret2, ← hhd]
      · intro hhs
        rw [hsz2 (by simp [recvBlockedState, hhs]), ← hhd]
      · intro hhp
        rw [hpp2 (by simp [recvBlockedState, hhp]), ← hhd]
      · rw [hprX] at hmem2
        exact hmem2
  · intro hrecv mp rest hfifo
    unfold syscall_step
    rw [hc]
    dsimp only
    rw [getcurrent_of_ready (c := c) ?hcs0 ?hrs0 ?hs00 ?hs01]
    case hcs0 => rfl
    case hrs0 =>
      show (Function.update s.threads c _ c).ready = true
      rw [Function.update_same]
      exact hr
    case hs00 =>
      show 0 ≤ (Function.update s.threads c _ c).priority
      rw [Function.update_same]
      exact hcp0
    case hs01 =>
      show (Function.update s.threads c _ c).priority < (PRIORITY_NUM : Int)
      rw [Function.update_same]
      exact hcp1
    rw [kbind_ok]
    simp only [Function.update_same]
    unfold call_functions
    dsimp only
    unfold thread_recv
    rw [dif_pos hid]
    dsimp only
    rw [hrecv]
    dsimp only
    simp only [Function.update_same]
    rw [hfifo]
    dsimp only
    rw [recvmsg_eq _ ⟨id, hid⟩ c mp rest ?hfs2 ?hrs2]
    case hfs2 =>
      dsimp only
      rw [Function.update_same]
    case hrs2 =>
      dsimp only
      rw [Function.update_same]
    rw [kbind_ok]
    dsimp only
    rw [putcurrent_of_not_ready (c := c) ?hcs4 ?hrs4 ?hs40 ?hs41]
    case hcs4 => rfl
    case hrs4 =>
      dsimp only
      rw [Function.update_same, recvWrite_ready, Function.update_same]
    case hs40 =>
      dsimp only
      rw [Function.update_same, recvWrite_priority, Function.update_same]
      exact hcp0
    case hs41 =>
      dsimp only
      rw [Function.update_same, recvWrite_priority, Function.update_same]
      exact hcp1
    rw [kbind_ok]
    dsimp only
    rw [kbind_ok]
    dsimp only
    simp only [Function.update_same, recvWrite_recvRet, recvWrite_priority,
      recvWrite_ready]
    refine ⟨_, rfl, ?_, ?_, ?_, ?_, ?_, ?_, ?_⟩
    · simp [Function.update_apply]
    · simp [Function.update_apply]
    · simp [Function.update_apply]
    · intro hhs
      simp [Function.update_apply, recvWrite_sizeOut, hhs]
    · intro hhp
      simp [Function.update_apply, recvWrite_pOut, hhp]
    · simp [Function.update_apply]
    · simp [Function.update_apply]

end Kozos

namespace Kozos

/-- TCB for a READY current thread at priority 1. -/
def W6tcb : TCB :=
  { TCB.zero with priority := 1, initFunc := some 5, ready := true }

/-- Witness state: thread 0 READY at the head of queue 1 and current;
thread 1 live and detached at priority 1; mailboxes empty. -/
def W6 : KernelState :=
  { W4 with
    threads := Function.update W4.threads 0 W6tcb,
    readyque := fun k => if k = 1 then [0] else [] }

/-- Witness state: like `W6` but a receiver is already parked on
mailbox 0. -/
def W7 : KernelState :=
  { W6 with
    msgboxes := Function.update W6.msgboxes 0 W5box }

/-- Mailbox 0 with no receiver and one buffered message from thread 1. -/
def W9box : MsgBox :=
  { receiver := none, fifo := [{ sender := some 1, size := 33, p := 4 }] }

/-- Witness state: like `W6` but mailbox 0 already holds one message. -/
def W9 : KernelState :=
  { W6 with
    msgboxes := Function.update W6.msgboxes 0 W9box }

theorem thread_recv_blocked_spec_witness :
    syscall_step W7 (.recv 0 true true) = Except.error KErr.sysdown ∧
    (∃ s', syscall_step W6 (.recv 0 true true) =
        Except.ok (s', SysRet.tid TIdVal.neg1) ∧
      (s'.msgboxes ⟨0, by decide⟩).receiver = some 0 ∧
      (s'.threads 0).recvRet = TIdVal.neg1 ∧
      (s'.threads 0).ready = false ∧
      (∃ s'', thread_send { s' with current := some 1 } 0 42 9 =
          Except.ok (s'', SysRet.int 42) ∧
        (s''.threads 0).recvRet = TIdVal.tcb 1 ∧
        (s''.threads 0).recvSizeOut = 42 ∧
        (s''.threads 0).recvPOut = 9)) ∧
    (∃ s', syscall_step W9 (.recv 0 true true) =
        Except.ok (s', SysRet.tid (TIdVal.tcb 1)) ∧
      (s'.msgboxes ⟨0, by decide⟩).fifo = [] ∧
      (s'.threads 0).recvRet = TIdVal.tcb 1 ∧
      (s'.threads 0).recvSizeOut = 33 ∧
      (s'.threads 0).recvPOut = 4 ∧
      (s'.threads 0).ready = true) := by
  refine ⟨?_, ?_, ?_⟩
  · exact (thread_recv_blocked_spec W7 0 0 true true (by decide) (by decide)
      (by decide) (by decide) (by decide)).1 1 (by decide)
  · obtain ⟨s', heq, hrc', -, hret', hrdy', -, -, -, -, -, hthj, comp⟩ :=
      (thread_recv_blocked_spec W6 0 0 true true (by decide) (by decide)
        (by decide) (by decide) (by decide)).2.1 (by decide) (by decide)
    have hth1 : s'.threads 1 = W6.threads 1 := hthj 1 (by decide)
    obtain ⟨s'', hsend, hret2, hsz2, hpp2, -, -⟩ :=
      comp 1 42 9 (by decide) (by rw [hth1]; decide) (by rw [hth1]; decide)
        (by rw [hth1]; decide)
    exact ⟨s', heq, hrc', hret', hrdy',
      s'', hsend, hret2, hsz2 (by decide), hpp2 (by decide)⟩
  · obtain ⟨s', heq, -, hff', hret', hsz', hpp', hrdy', -⟩ :=
      (thread_recv_blocked_spec W9 0 0 true true (by decide) (by decide)
        (by decide) (by decide) (by decide)).2.2 (by decide)
        { sender := some 1, size := 33, p := 4 } [] (by decide)
    exact ⟨s', heq, hff', hret', hsz' (by decide), hpp' (by decide), hrdy'⟩

end Kozos

namespace Kozos

/-- C8: the service-call variant runs the dispatcher with the
current-thread pointer nulled and never detaches anything: a SEND from
interrupt context appends a buffer whose sender field is null (the
receiver, if one is delivered to, reads a null sender id), the ready
queues are never shortened, and no thread's TCB other than a delivered
receiver's parameter block is touched. -/
theorem srvcall_send_null_sender (s : KernelState) (id : Nat) (size : Int)
    (p : Nat) (hid : id < MSGBOX_ID_NUM) :
    ((s.msgboxes ⟨id, hid⟩).receiver = none →
      ∃ s', srvcall_step s (.send id size p) = .ok (s', .int size) ∧
        s'.msgboxes ⟨id, hid⟩ =
          { receiver := none,
            fifo := (s.msgboxes ⟨id, hid⟩).fifo ++
              [{ sender := none, size := size, p := p }] } ∧
        s'.readyque = s.readyque ∧
        s'.threads = s.threads ∧
        s'.current = none) ∧
    (∀ r : Tid, (s.msgboxes ⟨id, hid⟩).receiver = some r →
      (s.msgboxes ⟨id, hid⟩).fifo = [] →
      (s.threads r).ready = false →
      0 ≤ (s.threads r).priority →
      (s.threads r).priority < (PRIORITY_NUM : Int) →
      ∃ s', srvcall_step s (.send id size p) = .ok (s', .int size) ∧
        (s'.threads r).recvRet = TIdVal.null ∧
        (s'.msgboxes ⟨id, hid⟩).receiver = none ∧
        (s'.msgboxes ⟨id, hid⟩).fifo = [] ∧
        (∀ k, ∃ ext, s'.readyque k = s.readyque k ++ ext)) := by
  constructor
  · intro hrecv
    unfold srvcall_step call_functions
    dsimp only
    unfold thread_send
    rw [dif_pos hid]
    rw [putcurrent_none rfl]
    rw [kbind_ok]
    dsimp only
    rw [sendmsg_eq]
    rw [kbind_ok]
    dsimp only
    rw [Function.update_same]
    dsimp only
    rw [hrecv]
    refine ⟨_, rfl, ?_, rfl, rfl, rfl⟩
    simp [hrecv]
  · intro r hrecv hfifo hrr hrp0 hrp1
    unfold srvcall_step call_functions
    dsimp only
    unfold thread_send
    rw [dif_pos hid]
    rw [putcurrent_none rfl]
    rw [kbind_ok]
    dsimp only
    rw [sendmsg_eq]
    rw [kbind_ok]
    dsimp only
    rw [Function.update_same]
    dsimp only
    rw [hrecv]
    dsimp only
    rw [recvmsg_eq _ ⟨id, hid⟩ r
      { sender := none, size := size, p := p } [] ?hfc ?hrc]
    case hfc =>
      dsimp only
      rw [Function.update_same]
      dsimp only
      rw [hfifo]
      rfl
    case hrc =>
      dsimp only
      rw [Function.update_same]
    rw [kbind_ok]
    dsimp only
    rw [putcurrent_of_not_ready (c := r) ?hcr4 ?hrr4 ?hrp40 ?hrp41]
    case hcr4 => rfl
    case hrr4 =>
      dsimp only
      rw [Function.update_same, recvWrite_ready]
      exact hrr
    case hrp40 =>
      dsimp only
      rw [Function.update_same, recvWrite_priority]
      exact hrp0
    case hrp41 =>
      dsimp only
      rw [Function.update_same, recvWrite_priority]
      exact hrp1
    rw [kbind_ok]
    refine ⟨_, rfl, ?_, ?_, ?_, ?_⟩
    · dsimp only
      rw [Function.update_same]
      dsimp only
      rw [Function.update_same, recvWrite_recvRet]
    · dsimp only
      rw [Function.update_same]
    · dsimp only
      rw [Function.update_same]
    · intro k
      dsimp only
      rw [Function.update_same, recvWrite_priority]
      rw [Function.update_apply]
      split_ifs with hk
      · exact ⟨[r], by rw [hk]⟩
      · exact ⟨[], by simp⟩

end Kozos

namespace Kozos

theorem srvcall_send_null_sender_witness :
    (∃ s', srvcall_step W4 (.send 0 8 3) = Except.ok (s', SysRet.int 8) ∧
      s'.msgboxes ⟨0, by decide⟩ =
        { receiver := none, fifo := [{ sender := none, size := 8, p := 3 }] }) ∧
    (∃ s', srvcall_step W5 (.send 0 8 3) = Except.ok (s', SysRet.int 8) ∧
      (s'.threads 1).recvRet = TIdVal.null) := by
  constructor
  · obtain ⟨s', h1, h2, -, -, -⟩ :=
      (srvcall_send_null_sender W4 0 8 3 (by decide)).1 (by decide)
    exact ⟨s', h1, by rw [h2]; decide⟩
  · obtain ⟨s', h1, h2, -, -, -⟩ :=
      (srvcall_send_null_sender W5 0 8 3 (by decide)).2 1 (by decide)
        (by decide) (by decide) (by decide) (by decide)
    exact ⟨s', h1, h2⟩

end Kozos

namespace Kozos

/-- Inversion for a successful `Except` bind. -/
theorem kbind_ok_inv {α β : Type} {x : Except KErr α}
    {f : α → Except KErr β} {b : β}
    (h : (do
      let a ← x
      f a) = .ok b) : ∃ a, x = .ok a ∧ f a = .ok b := by
  cases x with
  | error e => cases h
  | ok a => exact ⟨a, rfl, h⟩

theorem thread_run_msgboxes {s : KernelState} {f : Nat} {n : String}
    {pr : Int} {ss : Nat} {ac : Int} {av : Nat} {s1 : KernelState}
    {ret : SysRet}
    (h : thread_run s f n pr ss ac av = .ok (s1, ret)) :
    s1.msgboxes = s.msgboxes := by
  unfold thread_run at h
  cases hidx : findFreeFrom s.threads 0 with
  | none => rw [hidx] at h; cases h; rfl
  | some i =>
    rw [hidx] at h
    obtain ⟨s2, hput2, h⟩ := kbind_ok_inv h
    dsimp only at h
    obtain ⟨s4, hput4, h⟩ := kbind_ok_inv h
    cases h
    rw [putcurrent_msgboxes hput4]
    show KernelState.msgboxes { s2 with current := some i } = _
    rw [show ({ s2 with current := some i } : KernelState).msgboxes =
      s2.msgboxes from rfl]
    rw [putcurrent_msgboxes hput2]

theorem thread_exit_msgboxes {s s1 : KernelState} {ret : SysRet}
    (h : thread_exit s = .ok (s1, ret)) : s1.msgboxes = s.msgboxes := by
  unfold thread_exit at h
  cases hc : s.current with
  | none => rw [hc] at h; cases h
  | some c => rw [hc] at h; cases h; rfl

theorem thread_wait_msgboxes {s s1 : KernelState} {ret : SysRet}
    (h : thread_wait s = .ok (s1, ret)) : s1.msgboxes = s.msgboxes := by
  unfold thread_wait at h
  obtain ⟨s2, hput, h⟩ := kbind_ok_inv h
  cases h
  exact putcurrent_msgboxes hput

theorem thread_sleep_msgboxes {s s1 : KernelState} {ret : SysRet}
    (h : thread_sleep s = .ok (s1, ret)) : s1.msgboxes = s.msgboxes := by
  cases h
  rfl

theorem thread_wakeup_msgboxes {s : KernelState} {id : Tid}
    {s1 : KernelState} {ret : SysRet}
    (h : thread_wakeup s id = .ok (s1, ret)) : s1.msgboxes = s.msgboxes := by
  unfold thread_wakeup at h
  obtain ⟨s2, hput2, h⟩ := kbind_ok_inv h
  dsimp only at h
  obtain ⟨s4, hput4, h⟩ := kbind_ok_inv h
  cases h
  rw [putcurrent_msgboxes hput4]
  show KernelState.msgboxes { s2 with current := some id } = _
  rw [show ({ s2 with current := some id } : KernelState).msgboxes =
    s2.msgboxes from rfl]
  exact putcurrent_msgboxes hput2

theorem thread_getid_msgboxes {s s1 : KernelState} {ret : SysRet}
    (h : thread_getid s = .ok (s1, ret)) : s1.msgboxes = s.msgboxes := by
  unfold thread_getid at h
  obtain ⟨s2, hput, h⟩ := kbind_ok_inv h
  cases hc : s2.current with
  | none => rw [hc] at h; cases h; exact putcurrent_msgboxes hput
  | some c => rw [hc] at h; cases h; exact putcurrent_msgboxes hput

theorem thread_chpri_msgboxes {s : KernelState} {pr : Int}
    {s1 : KernelState} {ret : SysRet}
    (h : thread_chpri s pr = .ok (s1, ret)) : s1.msgboxes = s.msgboxes := by
  unfold thread_chpri at h
  cases hc : s.current with
  | none => rw [hc] at h; cases h
  | some c =>
    rw [hc] at h
    dsimp only at h
    obtain ⟨s2, hput, h⟩ := kbind_ok_inv h
    cases h
    rw [putcurrent_msgboxes hput]
    split
    · rfl
    · rfl

theorem thread_kmalloc_msgboxes {s : KernelState} {sz : Int}
    {s1 : KernelState} {ret : SysRet}
    (h : thread_kmalloc s sz = .ok (s1, ret)) : s1.msgboxes = s.msgboxes := by
  unfold thread_kmalloc at h
  obtain ⟨s2, hput, h⟩ := kbind_ok_inv h
  dsimp only [kzmem_alloc] at h
  cases h
  show s2.msgboxes = s.msgboxes
  exact putcurrent_msgboxes hput

theorem thread_kmfree_msgboxes {s : KernelState} {p : Nat}
    {s1 : KernelState} {ret : SysRet}
    (h : thread_kmfree s p = .ok (s1, ret)) : s1.msgboxes = s.msgboxes := by
  unfold thread_kmfree at h
  dsimp only [kzmem_free] at h
  obtain ⟨s2, hput, h⟩ := kbind_ok_inv h
  cases h
  exact putcurrent_msgboxes hput

theorem thread_setintr_msgboxes {s : KernelState} {ty hd : Nat}
    {s1 : KernelState} {ret : SysRet}
    (h : thread_setintr s ty hd = .ok (s1, ret)) :
    s1.msgboxes = s.msgboxes := by
  unfold thread_setintr at h
  split at h
  · obtain ⟨s2, hput, h⟩ := kbind_ok_inv h
    cases h
    rw [putcurrent_msgboxes hput]
  · cases h

end Kozos

namespace Kozos

theorem recvmsg_msgboxes {s : KernelState} {mb : Fin MSGBOX_ID_NUM}
    {s1 : KernelState} (h : recvmsg s mb = .ok s1) :
    (s1.msgboxes mb).receiver = none ∧
    (∀ i, i ≠ mb → s1.msgboxes i = s.msgboxes i) := by
  unfold recvmsg at h
  dsimp only at h
  cases hf : (s.msgboxes mb).fifo with
  | nil => rw [hf] at h; cases h
  | cons mp rest =>
    rw [hf] at h
    cases hr : (s.msgboxes mb).receiver with
    | none => rw [hr] at h; cases h
    | some r =>
      rw [hr] at h
      dsimp only [kzmem_free] at h
      cases h
      constructor
      · dsimp only
        rw [Function.update_same]
      · intro i hi
        dsimp only
        rw [Function.update_noteq hi]

theorem thread_send_mboxinv {s : KernelState} {id : Nat} {size : Int}
    {p : Nat} {s1 : KernelState} {ret : SysRet}
    (h : thread_send s id size p = .ok (s1, ret)) (hinv : MboxInv s) :
    MboxInv s1 := by
  unfold thread_send at h
  split at h
  case isFalse => cases h
  case isTrue hid =>
    obtain ⟨s2, hput, h⟩ := kbind_ok_inv h
    dsimp only at h
    rw [sendmsg_eq] at h
    obtain ⟨s3, hs3, h⟩ := kbind_ok_inv h
    cases hs3
    dsimp only at h
    rw [Function.update_same] at h
    dsimp only at h
    have hms2 : s2.msgboxes = s.msgboxes := putcurrent_msgboxes hput
    cases hr : (s2.msgboxes ⟨id, hid⟩).receiver with
    | none =>
      rw [hr] at h
      cases h
      intro i
      by_cases hi : i = (⟨id, hid⟩ : Fin MSGBOX_ID_NUM)
      · subst hi
        dsimp only
        rw [Function.update_same]
        simp [hr]
      · dsimp only
        rw [Function.update_noteq hi, hms2]
        exact hinv i
    | some r =>
      rw [hr] at h
      dsimp only at h
      obtain ⟨s4, hrm, h⟩ := kbind_ok_inv h
      obtain ⟨hrm1, hrm2⟩ := recvmsg_msgboxes hrm
      obtain ⟨s5, hput5, h⟩ := kbind_ok_inv h
      have hms5 : s5.msgboxes = s4.msgboxes := putcurrent_msgboxes hput5
      cases h
      intro i
      by_cases hi : i = (⟨id, hid⟩ : Fin MSGBOX_ID_NUM)
      · subst hi
        rw [hms5]
        simp [hrm1]
      · rw [hms5, hrm2 i hi]
        dsimp only
        rw [Function.update_noteq hi, hms2]
        exact hinv i

theorem thread_recv_mboxinv {s : KernelState} {id : Nat}
    {s1 : KernelState} {ret : SysRet}
    (h : thread_recv s id = .ok (s1, ret)) (hinv : MboxInv s) :
    MboxInv s1 := by
  unfold thread_recv at h
  split at h
  case isFalse => cases h
  case isTrue hid =>
    dsimp only at h
    cases hr : (s.msgboxes ⟨id, hid⟩).receiver with
    | some r0 => rw [hr] at h; cases h
    | none =>
      rw [hr] at h
      dsimp only at h
      rw [Function.update_same] at h
      dsimp only at h
      cases hf : (s.msgboxes ⟨id, hid⟩).fifo with
      | nil =>
        rw [hf] at h
        cases h
        intro i
        by_cases hi : i = (⟨id, hid⟩ : Fin MSGBOX_ID_NUM)
        · subst hi
          dsimp only
          rw [Function.update_same]
          simp
        · dsimp only
          rw [Function.update_noteq hi]
          exact hinv i
      | cons mp rest =>
        rw [hf] at h
        dsimp only at h
        obtain ⟨s4, hrm, h⟩ := kbind_ok_inv h
        obtain ⟨hrm1, hrm2⟩ := recvmsg_msgboxes hrm
        obtain ⟨s5, hput5, h⟩ := kbind_ok_inv h
        have hms5 : s5.msgboxes = s4.msgboxes := putcurrent_msgboxes hput5
        cases hc5 : s5.current with
        | none => rw [hc5] at h; cases h
        | some c =>
          rw [hc5] at h
          cases h
          intro i
          by_cases hi : i = (⟨id, hid⟩ : Fin MSGBOX_ID_NUM)
          · subst hi
            rw [hms5]
            simp [hrm1]
          · rw [hms5, hrm2 i hi]
            dsimp only
            rw [Function.update_noteq hi]
            exact hinv i

end Kozos

namespace Kozos

theorem call_functions_mboxinv {s : KernelState} {caller : Option Tid}
    {req : Request} {s1 : KernelState} {ret : SysRet}
    (h : call_functions s caller req = .ok (s1, ret)) (hinv : MboxInv s) :
    MboxInv s1 := by
  cases req with
  | run f n pr ss ac av =>
    intro i
    rw [thread_run_msgboxes h]
    exact hinv i
  | exit =>
    intro i
    rw [thread_exit_msgboxes h]
    exact hinv i
  | wait =>
    intro i
    rw [thread_wait_msgboxes h]
    exact hinv i
  | sleep =>
    intro i
    rw [thread_sleep_msgboxes h]
    exact hinv i
  | wakeup id =>
    intro i
    rw [thread_wakeup_msgboxes h]
    exact hinv i
  | getid =>
    intro i
    rw [thread_getid_msgboxes h]
    exact hinv i
  | chpri pr =>
    intro i
    rw [thread_chpri_msgboxes h]
    exact hinv i
  | kmalloc sz =>
    intro i
    rw [thread_kmalloc_msgboxes h]
    exact hinv i
  | kmfree p =>
    intro i
    rw [thread_kmfree_msgboxes h]
    exact hinv i
  | send id sz p => exact thread_send_mboxinv h hinv
  | setintr ty hd =>
    intro i
    rw [thread_setintr_msgboxes h]
    exact hinv i
  | recv id hs hp =>
    unfold call_functions at h
    dsimp only at h
    obtain ⟨⟨s2, ret2⟩, hrecv, h⟩ := kbind_ok_inv h
    have h2 := thread_recv_mboxinv hrecv hinv
    dsimp only at h
    cases caller with
    | none => cases h; exact h2
    | some c =>
      cases ret2 with
      | int n => cases h; exact h2
      | ptr q => cases h; exact h2
      | unit => cases h; exact h2
      | tid v =>
        cases h
        intro i
        show ¬((s2.msgboxes i).receiver.isSome ∧ (s2.msgboxes i).fifo ≠ [])
        exact h2 i

theorem syscall_step_mboxinv {s : KernelState} {req : Request}
    {s1 : KernelState} {ret : SysRet}
    (h : syscall_step s req = .ok (s1, ret)) (hinv : MboxInv s) :
    MboxInv s1 := by
  unfold syscall_step at h
  cases hc : s.current with
  | none => rw [hc] at h; cases h
  | some c =>
    rw [hc] at h
    dsimp only at h
    obtain ⟨s2, hget, h⟩ := kbind_ok_inv h
    refine call_functions_mboxinv h (fun i => ?_)
    rw [getcurrent_msgboxes hget]
    have : ∀ s0 : KernelState, s0.msgboxes = s.msgboxes →
        ¬((s0.msgboxes i).receiver.isSome ∧ (s0.msgboxes i).fifo ≠ []) := by
      intro s0 hs0
      rw [hs0]
      exact hinv i
    cases req <;> exact this _ rfl

/-- C5: for every mailbox and every sequence of system-call requests
that return normally, no state reached has a mailbox that
simultaneously holds a parked receiver and a non-empty FIFO. -/
theorem mbox_invariant_sequences (s : KernelState) (rs : List Request)
    (s' : KernelState) (hinv : MboxInv s)
    (h : runReqs s rs = .ok s') : MboxInv s' := by
  induction rs generalizing s with
  | nil =>
    unfold runReqs at h
    cases h
    exact hinv
  | cons r rs ih =>
    unfold runReqs at h
    obtain ⟨⟨s1, ret⟩, hstep, h⟩ := kbind_ok_inv h
    dsimp only at h
    exact ih s1 (syscall_step_mboxinv hstep hinv) h

theorem mbox_invariant_sequences_witness :
    ∃ s', runReqs W6 [.send 0 5 1, .recv 1 true true, .wait] =
        Except.ok s' ∧ MboxInv s' := by
  obtain ⟨s', hs'⟩ : ∃ s',
      runReqs W6 [.send 0 5 1, .recv 1 true true, .wait] =
        Except.ok s' := ⟨_, rfl⟩
  exact ⟨s', hs', mbox_invariant_sequences W6 _ s' (by decide) hs'⟩

end Kozos
